import Mathlib

/-!
# AT-command protocol engine of the ESP8266 driver

A shallow embedding of `ATESP8266WiFi.cpp`, `ATESP8266Client.cpp` and
`ATESP8266ClientReadBuffer.cpp`.

Conventions of the embedding.

* A byte is a `Nat` in `0..255`; a C string is the list of its bytes without the
  terminating NUL.
* A C++ call that has no defined result (control reaches the end of a non-void
  function without a `return`, or memory outside an array is accessed) is `none`;
  every function that can reach such a point returns `Option`.
* The clock and the serial line are the environment.  For the polling loops they are
  given as the list of outcomes of `_serial->available()` at the loop iterations that
  start before the deadline: `none` when no byte is waiting, `some c` when byte `c`
  is waiting and is read by that iteration.
-/

namespace ATESP8266

/-! ## Bytes and C strings -/

/-- The bytes of an ASCII literal. -/
def ascii (s : String) : List Nat := s.toList.map Char.toNat

/-- The C string stored at the start of a memory region: its bytes up to the first NUL. -/
def cstr (mem : List Nat) : List Nat := mem.takeWhile (fun c => c != 0)

/-- C `strstr` on two C strings: offset of the first occurrence of `needle` in `hay`
(`none` is the NULL pointer).  An empty needle is found at offset 0. -/
def strstr : List Nat → List Nat → Option Nat
  | [], needle => if needle.isEmpty then some 0 else none
  | h :: t, needle =>
      if needle.isPrefixOf (h :: t) then some 0 else (strstr t needle).map (fun i => i + 1)

/-- Conversion of an unsigned value to `int16_t` (two's complement, modulo 2^16). -/
def toInt16 (n : Nat) : Int :=
  if n % 65536 < 32768 then (n % 65536 : Nat) else ((n % 65536 : Nat) : Int) - 65536

/-- Conversion of an integer to `uint8_t`. -/
def toUInt8 (i : Int) : Nat := (i % 256).toNat

/-! ## Constants

`util/ESP8266_AT.h` is part of the sources; `ATESP8266WiFi.h` is not. -/

def RESPONSE_OK : List Nat := ascii "OK\r\n"
def RESPONSE_ERROR : List Nat := ascii "ERROR\r\n"
def RESPONSE_FAIL : List Nat := ascii "FAIL"
def RESPONSE_READY : List Nat := ascii "READY!"
def ESP8266_TCP_STATUS : List Nat := ascii "+CIPSTATUS"
def ESP8266_TCP_CONNECT : List Nat := ascii "+CIPSTART"
def ESP8266_TCP_SEND : List Nat := ascii "+CIPSEND"
def ESP8266_TCP_CLOSE : List Nat := ascii "+CIPCLOSE"

/-- Size of the receive buffer, `#define ESP8266_RX_BUFFER_LEN 128`. -/
def ESP8266_RX_BUFFER_LEN : Nat := 128

/-- Modelled from the spec: `ATESP8266WiFi.h`, which declares `esp8266_cmd_rsp`, is
missing.  The spec calls this the distinguished "timeout" result and the code tests the
results of this enumeration as negative (`rsp < 0`, "Fail: <0"). -/
def ESP8266_RSP_TIMEOUT : Int := -1

/-- Modelled from the spec: `ATESP8266WiFi.h` is missing; the distinguished "unknown"
result, negative and different from the other results. -/
def ESP8266_RSP_UNKNOWN : Int := -2

/-- Modelled from the spec: `ATESP8266WiFi.h` is missing; the distinguished "fail"
result, negative and different from the other results. -/
def ESP8266_RSP_FAIL : Int := -3

/-- Modelled from the spec: `ATESP8266WiFi.h` is missing; the number of link slots,
"fixed at 5" by the firmware. -/
abbrev ESP8266_MAX_SOCK_NUM : Nat := 5

/-- Modelled from the spec: `ATESP8266WiFi.h` is missing; the "none" result of slot
allocation, the `uint8_t` value that is not a link id and marks an unused slot. -/
def ESP8266_SOCK_NOT_AVAIL : Nat := 255

/-- Number of values of `unsigned int` on the AVR targets of the library (16 bits).
Counters below 65536 behave the same on targets with a wider `unsigned int`. -/
def UINT_RANGE : Nat := 65536

/-! ## Receive buffer (`ATESP8266WiFi.cpp`, "Buffer Stuff") -/

/-- The globals `esp8266RxBuffer` (128 bytes) and `bufferHead`. -/
structure RxBuffer where
  esp8266RxBuffer : List Nat
  bufferHead : Nat
deriving DecidableEq, Repr

/-- `clearBuffer()`: zero the buffer and reset the write cursor. -/
def clearBuffer : RxBuffer :=
  { esp8266RxBuffer := List.replicate ESP8266_RX_BUFFER_LEN 0, bufferHead := 0 }

/-- `readByteToBuffer()` with the byte `c` returned by `_serial->read()`: store it at
the cursor and advance the cursor modulo the buffer length.  (The source returns the
constant 1, which the callers add to `received`.) -/
def readByteToBuffer (b : RxBuffer) (c : Nat) : RxBuffer :=
  { esp8266RxBuffer := b.esp8266RxBuffer.set b.bufferHead c,
    bufferHead := (b.bufferHead + 1) % ESP8266_RX_BUFFER_LEN }

/-- `searchBuffer(test)`.  `bufferLen` is `strlen` of the buffer; when no NUL lies
inside the 128 bytes it is at least 128.  In that case the source runs an empty loop
and ends without a `return`: the call has no result (`none`).  Otherwise the result is
that of `strstr` (`some none` is NULL). -/
def searchBuffer (b : RxBuffer) (test : List Nat) : Option (Option Nat) :=
  let bufferLen := (cstr b.esp8266RxBuffer).length
  if bufferLen < ESP8266_RX_BUFFER_LEN then
    some (strstr (cstr b.esp8266RxBuffer) (cstr test))
  else
    none

/-! ## Command channel -/

/-- The value returned by a call, without the state it leaves. -/
def result {σ : Type} (r : Option (Int × σ)) : Option Int := r.map Prod.fst

/-- The `while (timeIn + timeout > millis())` loop of `readForResponse`, over the poll
outcomes of the iterations before the deadline.  The result is the value returned and
the receive buffer at that moment. -/
def readForResponseLoop (rsp : List Nat) :
    List (Option Nat) → RxBuffer → Nat → Option (Int × RxBuffer)
  | [], b, received =>
      some (if received > 0 then ESP8266_RSP_UNKNOWN else ESP8266_RSP_TIMEOUT, b)
  | none :: polls, b, received => readForResponseLoop rsp polls b received
  | some c :: polls, b, received =>
      let b1 := readByteToBuffer b c
      let received1 := (received + 1) % UINT_RANGE
      match searchBuffer b1 rsp with
      | none => none
      | some (some _) => some (toInt16 received1, b1)
      | some none => readForResponseLoop rsp polls b1 received1

/-- `readForResponse(rsp, timeout)`: clear the buffer, then poll. -/
def readForResponse (rsp : List Nat) (polls : List (Option Nat)) : Option (Int × RxBuffer) :=
  readForResponseLoop rsp polls clearBuffer 0

/-- The polling loop of `readForResponses`: `pass` is searched first, then `fail`. -/
def readForResponsesLoop (pass fail : List Nat) :
    List (Option Nat) → RxBuffer → Nat → Option (Int × RxBuffer)
  | [], b, received =>
      some (if received > 0 then ESP8266_RSP_UNKNOWN else ESP8266_RSP_TIMEOUT, b)
  | none :: polls, b, received => readForResponsesLoop pass fail polls b received
  | some c :: polls, b, received =>
      let b1 := readByteToBuffer b c
      let received1 := (received + 1) % UINT_RANGE
      match searchBuffer b1 pass with
      | none => none
      | some (some _) => some (toInt16 received1, b1)
      | some none =>
          match searchBuffer b1 fail with
          | none => none
          | some (some _) => some (ESP8266_RSP_FAIL, b1)
          | some none => readForResponsesLoop pass fail polls b1 received1

/-- `readForResponses(pass, fail, timeout)`. -/
def readForResponses (pass fail : List Nat) (polls : List (Option Nat)) :
    Option (Int × RxBuffer) :=
  readForResponsesLoop pass fail polls clearBuffer 0

/-! ## Sending a command (`ESP8266Class::sendCommand`) -/

/-- Modelled from the spec: `ATESP8266WiFi.h`, which declares `esp8266_command_type`, is
missing.  The three kinds of command line: query (`?`), setup (`=` and parameters) and
execute (nothing after the command code). -/
inductive esp8266_command_type where
  | ESP8266_CMD_QUERY
  | ESP8266_CMD_SETUP
  | ESP8266_CMD_EXECUTE
deriving DecidableEq, Repr

open esp8266_command_type

/-- `_serial->print(s)` for a C string: its bytes are appended to what the transport has
been sent. -/
def print (tx : List Nat) (s : List Nat) : List Nat := tx ++ cstr s

/-- `_serial->print(c)` for one character. -/
def printChar (tx : List Nat) (c : Nat) : List Nat := tx ++ [c]

/-- `sendCommand(cmd, type, params)`; `tx` is what has been written to the transport.
(The calls with the command code alone, as `sendCommand(ESP8266_TCP_STATUS)`, are calls
of the execute type.) -/
def sendCommand (tx : List Nat) (cmd : List Nat) (type : esp8266_command_type)
    (params : List Nat) : List Nat :=
  let tx1 := print tx (ascii "AT")
  let tx2 := print tx1 cmd
  let tx3 :=
    if type = ESP8266_CMD_QUERY then printChar tx2 63
    else if type = ESP8266_CMD_SETUP then print (print tx2 (ascii "=")) params
    else tx2
  print tx3 (ascii "\r\n")

/-! ## De-frame buffer (`ATESP8266ClientReadBuffer.cpp`) -/

/-- Capacity of the de-frame buffer, `#define ESP8266_CLIENT_MAX_BUFFER_SIZE 256`. -/
def ESP8266_CLIENT_MAX_BUFFER_SIZE : Nat := 256

/-- Conversion of an integer to `char`, a signed 8-bit type on the AVR targets of the
library (two's complement). -/
def toChar (i : Int) : Int := (i + 128) % 256 - 128

/-- The fields of `ESP8266ClientReadBuffer`: `char receiveBufferSize` and the 256-byte
array `receiveBuffer`. -/
structure ESP8266ClientReadBuffer where
  receiveBufferSize : Int
  receiveBuffer : List Nat
deriving DecidableEq, Repr

/-- The copy loop of `truncateReceiveBufferHead`,
`receiveBuffer[i] = receiveBuffer[i + truncateLength]`, for `n` consecutive values of
`i` starting at `i`. -/
def shiftLeft (truncateLength : Nat) : Nat → Nat → List Nat → List Nat
  | 0, _, buf => buf
  | n + 1, i, buf =>
      shiftLeft truncateLength n (i + 1) (buf.set i (buf.getD (i + truncateLength) 0))

/-- `truncateReceiveBufferHead(startingOffset, truncateLength)`.  The loop runs for
`startingOffset <= i < receiveBufferSize - truncateLength` (compared as `int`), that is
`receiveBufferSize - truncateLength - startingOffset` times when this is positive; all
its accesses lie below `receiveBufferSize`.  Then the length is reduced, as a `char`. -/
def truncateReceiveBufferHead (s : ESP8266ClientReadBuffer)
    (startingOffset truncateLength : Nat) : ESP8266ClientReadBuffer :=
  { receiveBuffer :=
      shiftLeft truncateLength
        (s.receiveBufferSize - truncateLength - startingOffset).toNat startingOffset
        s.receiveBuffer,
    receiveBufferSize := toChar (s.receiveBufferSize - truncateLength) }

/-- The search loop of `cleanReceiveBufferFromAT`: the first offset among `n`
consecutive ones, starting at `offset`, at which `memcmp` over `atLen` bytes finds
`atCommand`. -/
def findAT (buf atCommand : List Nat) (atLen : Nat) : Nat → Nat → Option Nat
  | 0, _ => none
  | n + 1, offset =>
      if (buf.drop offset).take atLen = atCommand.take atLen then some offset
      else findAT buf atCommand atLen n (offset + 1)

/-- `cleanReceiveBufferFromAT(atCommand, additionalSuffixToKill)`: `atLen` is `strlen`
as a `uint8_t`; the offsets `0 <= offset <= receiveBufferSize - atLen` are searched and
the first match is removed together with `additionalSuffixToKill` more bytes. -/
def cleanReceiveBufferFromATWith (s : ESP8266ClientReadBuffer) (atCommand : List Nat)
    (additionalSuffixToKill : Nat) : ESP8266ClientReadBuffer :=
  let atLen := (cstr atCommand).length % 256
  match findAT s.receiveBuffer atCommand atLen (s.receiveBufferSize - atLen + 1).toNat 0 with
  | some offset => truncateReceiveBufferHead s offset ((atLen + additionalSuffixToKill) % 256)
  | none => s

/-- The marker `\r\n\r\n+IPD`. -/
def IPD_MARKER : List Nat := ascii "\r\n\r\n+IPD"

/-- `cleanReceiveBufferFromAT()`: remove the marker and 5 more bytes. -/
def cleanReceiveBufferFromAT (s : ESP8266ClientReadBuffer) : ESP8266ClientReadBuffer :=
  cleanReceiveBufferFromATWith s IPD_MARKER 5

/-- One pass of the innermost loop of `fillReceiveBuffer`,
`receiveBuffer[receiveBufferSize++] = esp8266.read()`, for the byte `c`.  The guard
`receiveBufferSize < ESP8266_CLIENT_MAX_BUFFER_SIZE` holds for every `char`; were it
false the enclosing `while` would not end.  A negative index lies outside the array. -/
def fillByte (s : ESP8266ClientReadBuffer) (c : Nat) : Option ESP8266ClientReadBuffer :=
  if s.receiveBufferSize < ESP8266_CLIENT_MAX_BUFFER_SIZE then
    if 0 ≤ s.receiveBufferSize then
      some { receiveBuffer := s.receiveBuffer.set s.receiveBufferSize.toNat c,
             receiveBufferSize := toChar (s.receiveBufferSize + 1) }
    else none
  else none

/-- The draining loops of `fillReceiveBuffer`: every byte the transport holds is read,
one per pass (`availableBytes` is the truth value of `esp8266.available() > 0`). -/
def drainAvailable : List Nat → ESP8266ClientReadBuffer → Option ESP8266ClientReadBuffer
  | [], s => some s
  | c :: rx, s =>
      match fillByte s c with
      | none => none
      | some s1 => drainAvailable rx s1

/-- `fillReceiveBuffer()` when the transport holds the bytes `rx`: drain them, then run
the de-framing pass.  (Bytes that arrive during the pauses of the call count as held
when it starts.) -/
def fillReceiveBuffer (rx : List Nat) (s : ESP8266ClientReadBuffer) :
    Option ESP8266ClientReadBuffer :=
  (drainAvailable rx s).map cleanReceiveBufferFromAT

/-- `ESP8266ClientReadBuffer::read()` when the transport holds `rx`: the value returned
and the new buffer; the transport is left empty. -/
def read (rx : List Nat) (s : ESP8266ClientReadBuffer) :
    Option (Int × ESP8266ClientReadBuffer) :=
  (fillReceiveBuffer rx s).map fun s1 =>
    if s1.receiveBufferSize > 0 then
      ((s1.receiveBuffer.getD 0 0 : Nat), truncateReceiveBufferHead s1 0 1)
    else (-1, s1)

/-- What the environment and the application do, in order: bytes arrive at the
transport, or the application calls `read()`. -/
inductive Event where
  | arrive (bytes : List Nat)
  | read
deriving DecidableEq, Repr

/-- Run a sequence of events from the transport content `rx` and the buffer `s`; the
result lists the values returned by the `read()` calls. -/
def run : List Event → List Nat → ESP8266ClientReadBuffer → Option (List Int)
  | [], _, _ => some []
  | Event.arrive bytes :: evs, rx, s => run evs (rx ++ bytes) s
  | Event.read :: evs, rx, s =>
      match read rx s with
      | none => none
      | some (v, s1) => (run evs [] s1).map (fun vs => v :: vs)

/-- The bytes that arrive in a sequence of events. -/
def arrivals : List Event → List Nat
  | [] => []
  | Event.arrive bytes :: evs => bytes ++ arrivals evs
  | Event.read :: evs => arrivals evs

/-- No `read()` is called while between 1 and 12 bytes have arrived, `n` being the
number of bytes arrived before the events. -/
def headerComplete : Nat → List Event → Bool
  | _, [] => true
  | n, Event.arrive bytes :: evs => headerComplete (n + bytes.length) evs
  | n, Event.read :: evs => (decide (n = 0) || decide (13 ≤ n)) && headerComplete n evs

/-- The logical content of the buffer: its first `receiveBufferSize` bytes. -/
def content (s : ESP8266ClientReadBuffer) : List Nat :=
  s.receiveBuffer.take s.receiveBufferSize.toNat

/-- An empty de-frame buffer. -/
def emptyBuffer : ESP8266ClientReadBuffer :=
  { receiveBufferSize := 0, receiveBuffer := List.replicate ESP8266_CLIENT_MAX_BUFFER_SIZE 0 }

/-- A de-frame buffer holding `bytes` (at most 127). -/
def bufferHolding (bytes : List Nat) : ESP8266ClientReadBuffer :=
  { receiveBufferSize := bytes.length,
    receiveBuffer := bytes ++ List.replicate (ESP8266_CLIENT_MAX_BUFFER_SIZE - bytes.length) 0 }

/-- The fixture `\r\n\r\n+IPD,0,4:ABCD`. -/
def FIXTURE : List Nat := ascii "\r\n\r\n+IPD,0,4:ABCD"

/-- The payload `ABCD`. -/
def PAYLOAD : List Int := [65, 66, 67, 68]

/-! ## Status table (`ESP8266Class::updateStatus`, `ESP8266Client::getFirstSocket`) -/

/-- Modelled from the spec: `ATESP8266WiFi.h` is missing; the protocol of a link slot,
"{TCP, UDP, Undefined}". -/
inductive esp8266_connection_type where
  | ESP8266_TCP
  | ESP8266_UDP
  | ESP8266_TYPE_UNDEFINED
deriving DecidableEq, Repr

/-- Modelled from the spec: `ATESP8266WiFi.h` is missing; the role of a link slot,
"{Client, Server}". -/
inductive esp8266_tetype where
  | ESP8266_CLIENT
  | ESP8266_SERVER
deriving DecidableEq, Repr

/-- Modelled from the spec: `ATESP8266WiFi.h` is missing; the local state of a link
slot, "{Available, Taken}". -/
inductive esp8266_socket_state where
  | AVAILABLE
  | TAKEN
deriving DecidableEq, Repr

open esp8266_connection_type esp8266_tetype esp8266_socket_state

/-- Modelled from the spec: `ATESP8266WiFi.h` is missing; one entry of
`_status.ipstatus`, with the fields `updateStatus` writes: `linkID` (`uint8_t`, 255 for
unused), `type`, `remoteIP` (four octets), `port` (`uint16_t`) and `tetype`. -/
structure esp8266_ipstatus where
  linkID : Nat
  type : esp8266_connection_type
  remoteIP : Fin 4 → Nat
  port : Nat
  tetype : esp8266_tetype

/-- Modelled from the spec: `ATESP8266WiFi.h` is missing; the member `_status`: the
station status `stat` and one entry per link id. -/
structure esp8266_status where
  stat : Int
  ipstatus : Fin ESP8266_MAX_SOCK_NUM → esp8266_ipstatus

/-- The state of the driver object `esp8266` and of the globals of
`ATESP8266WiFi.cpp`: the bytes written to the transport so far, the receive buffer, the
status table and the local state of the slots. -/
structure ESP8266Class where
  tx : List Nat
  rxBuffer : RxBuffer
  _status : esp8266_status
  _state : Fin ESP8266_MAX_SOCK_NUM → esp8266_socket_state

/-- The character read by `*p`; `none` when `p` lies outside the array. -/
def peek (buf : List Nat) (p : Nat) : Option Nat := buf[p]?

/-- The C string that starts at `p`; `none` when no NUL follows `p` inside the array
(a string function would read past the end of the array). -/
def cstrAt (buf : List Nat) (p : Nat) : Option (List Nat) :=
  if 0 ∈ buf.drop p then some (cstr (buf.drop p)) else none

/-- Membership in `"0123456789"`. -/
def isDigit (c : Nat) : Bool := decide (48 ≤ c) && decide (c ≤ 57)

/-- `strspn(p, "0123456789")` on the C string at `p`. -/
def strspnDigits (str : List Nat) : Nat := (str.takeWhile isDigit).length

/-- `atoi` on a string of decimal digits. -/
def atoiDigits (ds : List Nat) : Nat := ds.foldl (fun acc d => acc * 10 + (d - 48)) 0

/-- An assignment to a field of `_status.ipstatus[k]`. -/
def setSlot (st : esp8266_status) (k : Fin ESP8266_MAX_SOCK_NUM)
    (f : esp8266_ipstatus → esp8266_ipstatus) : esp8266_status :=
  { st with ipstatus := Function.update st.ipstatus k (f (st.ipstatus k)) }

/-- The loop `for (int j = i; j < ESP8266_MAX_SOCK_NUM; j++) ipstatus[j].linkID = 255`. -/
def resetFrom (i : Nat) (st : esp8266_status) : esp8266_status :=
  { st with ipstatus := fun j =>
      if i ≤ j.val then { st.ipstatus j with linkID := 255 } else st.ipstatus j }

/-- The loop over the four octets of the remote address, for the values of `j` listed.
`tempOctet` has 4 bytes: a run of 4 or more digits leaves it without terminator or
overflows it, and the call has no defined result.  The value is stored as `uint8_t`. -/
def parseOctets (buf : List Nat) (k : Fin ESP8266_MAX_SOCK_NUM) :
    List (Fin 4) → Nat → esp8266_status → Option (Nat × esp8266_status)
  | [], p, st => some (p, st)
  | j :: js, p, st =>
      match cstrAt buf p with
      | none => none
      | some str =>
          let octetLength := strspnDigits str
          if octetLength < 4 then
            parseOctets buf k js (p + (octetLength + 1))
              (setSlot st k fun e =>
                { e with remoteIP :=
                    Function.update e.remoteIP j (atoiDigits (str.take octetLength) % 256) })
          else none

/-- The record marker `+CIPSTATUS:`. -/
def CIPSTATUS_MARKER : List Nat := ascii "+CIPSTATUS:"

/-- The loop `for (int i = 0; i < ESP8266_MAX_SOCK_NUM; i++)` of `updateStatus`, with
`n` iterations left, the loop counter `i` and the pointer `p` (an offset into the
receive buffer `buf`).  `tempPort` has 6 bytes: a run of 6 or more digits has no defined
result.  The port is stored as `uint16_t`. -/
def updateStatusLoop (buf : List Nat) (rsp : Int) :
    Nat → Nat → Nat → esp8266_status → Option (Int × esp8266_status)
  | 0, _, _, st => some (rsp, st)
  | n + 1, i, p, st =>
      match cstrAt buf p with
      | none => none
      | some str =>
          match strstr str CIPSTATUS_MARKER with
          | none => some (rsp, resetFrom i st)
          | some off =>
              let p1 := p + off + CIPSTATUS_MARKER.length
              match peek buf p1 with
              | none => none
              | some c =>
                  let linkId := toUInt8 ((c : Int) - 48)
                  if h : linkId < ESP8266_MAX_SOCK_NUM then
                    let k : Fin ESP8266_MAX_SOCK_NUM := ⟨linkId, h⟩
                    let st1 := setSlot st k fun e => { e with linkID := linkId }
                    let p2 := p1 + 3
                    match peek buf p2 with
                    | none => none
                    | some t =>
                        let st2 := setSlot st1 k fun e =>
                          { e with type :=
                              if t = 84 then ESP8266_TCP
                              else if t = 85 then ESP8266_UDP
                              else ESP8266_TYPE_UNDEFINED }
                        let p3 := p2 + 6
                        match parseOctets buf k [0, 1, 2, 3] p3 st2 with
                        | none => none
                        | some (p4, st3) =>
                            let p5 := p4 + 1
                            match cstrAt buf p5 with
                            | none => none
                            | some str5 =>
                                let portLen := strspnDigits str5
                                if portLen < 6 then
                                  let st4 := setSlot st3 k fun e =>
                                    { e with port := atoiDigits (str5.take portLen) % 65536 }
                                  let p6 := p5 + (portLen + 1)
                                  match peek buf p6 with
                                  | none => none
                                  | some r =>
                                      let st5 :=
                                        if r = 48 then
                                          setSlot st4 k fun e => { e with tetype := ESP8266_CLIENT }
                                        else if r = 49 then
                                          setSlot st4 k fun e => { e with tetype := ESP8266_SERVER }
                                        else st4
                                      updateStatusLoop buf rsp n (i + 1) p6 st5
                                else none
                  else some (rsp, st)

/-- The part of `updateStatus` after `readForResponse` has returned `rsp` and left the
receive buffer `b`: the parse of the reply into the table, and the value returned.  The
station status is `*p - 48` with `*p` read as a `char`, a signed type on the AVR targets:
a byte above 127 is read as a negative number.  (The link id, converted to `uint8_t`,
and the comparisons with `T`, `U`, `0`, `1` are the same for either signedness.) -/
def updateStatusParse (b : RxBuffer) (rsp : Int) (st : esp8266_status) :
    Option (Int × esp8266_status) :=
  if rsp > 0 then
    match searchBuffer b (ascii "STATUS:") with
    | none => none
    | some none => some (ESP8266_RSP_UNKNOWN, st)
    | some (some off) =>
        let p := off + (ascii "STATUS:").length
        match peek b.esp8266RxBuffer p with
        | none => none
        | some c =>
            updateStatusLoop b.esp8266RxBuffer rsp ESP8266_MAX_SOCK_NUM 0 p
              { st with stat := toChar (c : Int) - 48 }
  else some (rsp, st)

/-- `updateStatus()`: send `AT+CIPSTATUS`, wait for `OK`, parse the reply. -/
def updateStatus (polls : List (Option Nat)) (d : ESP8266Class) : Option (Int × ESP8266Class) :=
  let tx1 := sendCommand d.tx ESP8266_TCP_STATUS ESP8266_CMD_EXECUTE []
  match readForResponse RESPONSE_OK polls with
  | none => none
  | some (rsp, b) =>
      match updateStatusParse b rsp d._status with
      | none => none
      | some (ret, st) => some (ret, { d with tx := tx1, rxBuffer := b, _status := st })

/-- The scan of `getFirstSocket` from slot `i`, with `n` slots left: the first slot
whose `linkID` is 255, else `ESP8266_SOCK_NOT_AVAIL`. -/
def firstFree (st : esp8266_status) : Nat → Nat → Nat
  | 0, _ => ESP8266_SOCK_NOT_AVAIL
  | n + 1, i =>
      if h : i < ESP8266_MAX_SOCK_NUM then
        if (st.ipstatus ⟨i, h⟩).linkID = 255 then i else firstFree st n (i + 1)
      else ESP8266_SOCK_NOT_AVAIL

/-- `ESP8266Client::getFirstSocket()`: refresh the table (the result of `updateStatus`
is not looked at), then scan it. -/
def getFirstSocket (polls : List (Option Nat)) (d : ESP8266Class) :
    Option (Nat × ESP8266Class) :=
  match updateStatus polls d with
  | none => none
  | some (_, d1) => some (firstFree d1._status ESP8266_MAX_SOCK_NUM 0, d1)

/-- A slot entry that is not in use: `linkID` 255. -/
def unusedSlot : esp8266_ipstatus :=
  { linkID := 255, type := ESP8266_TYPE_UNDEFINED, remoteIP := fun _ => 0, port := 0,
    tetype := ESP8266_CLIENT }

/-- A table in which link 0 is recorded as active (as after a refresh that reported link
0) and the other slots are unused. -/
def link0Table : esp8266_status :=
  { stat := 3,
    ipstatus := fun k => if k.val = 0 then { unusedSlot with linkID := 0 } else unusedSlot }

/-- A driver state with the table `link0Table`. -/
def link0Device : ESP8266Class :=
  { tx := [], rxBuffer := clearBuffer, _status := link0Table, _state := fun _ => AVAILABLE }

/-- A status reply that reports one active link, link 1. -/
def replyLink1 : List Nat :=
  ascii "STATUS:3\r\n+CIPSTATUS:1,\"TCP\",\"192.168.0.5\",80,1234,0\r\n\r\nOK\r\n"

/-- A status reply that reports one active link, link 0, with local port 1234 and the
role 0 (client). -/
def replyLink0 : List Nat :=
  ascii "STATUS:3\r\n+CIPSTATUS:0,\"TCP\",\"192.168.0.5\",80,1234,0\r\n\r\nOK\r\n"

/-! ## TCP/IP commands and the client facade
(`ESP8266Class::tcpConnect`, `tcpSend`, `close`, `status`; `ATESP8266Client.cpp`) -/

/-- Modelled from the spec: `ATESP8266WiFi.h` is missing; the "BadRequest" result of
`esp8266_cmd_rsp`, negative and different from the other results. -/
def ESP8266_CMD_BAD : Int := -5

/-- The station status "created a TCP or UDP transmission", `ESP8266_STATUS_CONNECTED`,
3 by the comments of `status()` and `updateStatus()`. -/
def ESP8266_STATUS_CONNECTED : Int := 3

/-- Station status `ESP8266_STATUS_GOTIP`, 2 by the comment in `status()`. -/
def ESP8266_STATUS_GOTIP : Int := 2

/-- Station status `ESP8266_STATUS_DISCONNECTED`, 4 by the comment in `status()`. -/
def ESP8266_STATUS_DISCONNECTED : Int := 4

/-- Station status `ESP8266_STATUS_NOWIFI`, 5 by the comment in `status()`. -/
def ESP8266_STATUS_NOWIFI : Int := 5

/-- The decimal digits of a number, as `print(n)` and `sprintf("%d", n)` write them. -/
def decimal (n : Nat) : List Nat := (Nat.toDigits 10 n).map Char.toNat

/-- `ESP8266Class::write(c)`: the byte is handed to `_serial->write`, and control then
reaches the end of the function, which is declared `size_t`, without a `return`: the call
has no defined result. -/
def write (_tx : List Nat) (_c : Nat) : Option (Nat × List Nat) := none

/-- The bytes `bytes` sent one by one through `write`: the loop `write(buf[i])` of
`tcpSend`, and `print(...)` on the driver object, which passes every byte it prints to
`write`. -/
def writeEach : List Nat → List Nat → Option (List Nat)
  | tx, [] => some tx
  | tx, c :: cs =>
      match write tx c with
      | none => none
      | some (_, tx1) => writeEach tx1 cs

/-- The `print` calls of `tcpConnect`, which write the command line
`AT+CIPSTART=<linkID>,"TCP","<destination>",<port>[,<keepAlive / 500>]` and CR LF. -/
def tcpConnectPrint (tx : List Nat) (linkID : Nat) (destination : List Nat)
    (port keepAlive : Nat) : Option (List Nat) :=
  (writeEach tx (ascii "AT")).bind fun tx1 =>
  (writeEach tx1 (cstr ESP8266_TCP_CONNECT)).bind fun tx2 =>
  (writeEach tx2 [61]).bind fun tx3 =>
  (writeEach tx3 (decimal linkID)).bind fun tx4 =>
  (writeEach tx4 [44]).bind fun tx5 =>
  (writeEach tx5 (ascii "\"TCP\",")).bind fun tx6 =>
  (writeEach tx6 (ascii "\"")).bind fun tx7 =>
  (writeEach tx7 (cstr destination)).bind fun tx8 =>
  (writeEach tx8 (ascii "\",")).bind fun tx9 =>
  (writeEach tx9 (decimal port)).bind fun tx10 =>
  (if keepAlive > 0 then
      (writeEach tx10 [44]).bind fun tx10a => writeEach tx10a (decimal (keepAlive / 500))
    else some tx10).bind fun tx11 =>
  writeEach tx11 (ascii "\r\n")

/-- The part of `tcpConnect` that follows the printing of the command line: wait for `OK`
or `ERROR`; on a negative result look for `ALREADY` in the receive buffer and return 2
if it is found and the result of the wait if not; otherwise return 1. -/
def tcpConnectAwait (polls : List (Option Nat)) (d : ESP8266Class) :
    Option (Int × ESP8266Class) :=
  match readForResponses RESPONSE_OK RESPONSE_ERROR polls with
  | none => none
  | some (rsp, b) =>
      let d1 : ESP8266Class := { d with rxBuffer := b }
      if rsp < 0 then
        match searchBuffer b (ascii "ALREADY") with
        | none => none
        | some (some _) => some (2, d1)
        | some none => some (rsp, d1)
      else some (1, d1)

/-- `ESP8266Class::tcpConnect(linkID, destination, port, keepAlive)`: print the connect
command, then wait and classify the reply. -/
def tcpConnect (polls : List (Option Nat)) (d : ESP8266Class) (linkID : Nat)
    (destination : List Nat) (port keepAlive : Nat) : Option (Int × ESP8266Class) :=
  match tcpConnectPrint d.tx linkID destination port keepAlive with
  | none => none
  | some tx1 => tcpConnectAwait polls { d with tx := tx1 }

/-- `ESP8266Class::tcpSend(linkID, buf, size)` with `size` the length of `buf`; `polls1`
and `polls2` are the poll outcomes of the two waits.  `params` has 8 bytes: a longer
parameter string overflows it and the call has no defined result. -/
def tcpSend (polls1 polls2 : List (Option Nat)) (d : ESP8266Class) (linkID : Nat)
    (buf : List Nat) : Option (Int × ESP8266Class) :=
  if buf.length > 2048 then some (ESP8266_CMD_BAD, d)
  else
    let params := decimal linkID ++ [44] ++ decimal buf.length
    if params.length + 1 ≤ 8 then
      let tx1 := sendCommand d.tx ESP8266_TCP_SEND ESP8266_CMD_SETUP params
      match readForResponses RESPONSE_OK RESPONSE_ERROR polls1 with
      | none => none
      | some (rsp, b1) =>
          if rsp ≠ ESP8266_RSP_FAIL then
            match writeEach tx1 buf with
            | none => none
            | some tx2 =>
                match readForResponse (ascii "SEND OK") polls2 with
                | none => none
                | some (rsp2, b2) =>
                    let d2 : ESP8266Class := { d with tx := tx2, rxBuffer := b2 }
                    if rsp2 > 0 then some (toInt16 buf.length, d2) else some (rsp2, d2)
          else some (rsp, { d with tx := tx1, rxBuffer := b1 })
    else none

/-- `ESP8266Class::close(linkID)`: send `AT+CIPCLOSE=<linkID>` and wait for `OK`.
`params` has 2 bytes: a link id of two or more digits overflows it. -/
def close (polls : List (Option Nat)) (d : ESP8266Class) (linkID : Nat) :
    Option (Int × ESP8266Class) :=
  let params := decimal linkID
  if params.length + 1 ≤ 2 then
    let tx1 := sendCommand d.tx ESP8266_TCP_CLOSE ESP8266_CMD_SETUP params
    match readForResponse RESPONSE_OK polls with
    | none => none
    | some (rsp, b) => some (rsp, { d with tx := tx1, rxBuffer := b })
  else none

/-- `ESP8266Class::status()`: refresh the table; on a positive result the station status
2, 3 or 4 gives 1 and 5 gives 0; in every other case the result of `updateStatus` is
returned. -/
def status (polls : List (Option Nat)) (d : ESP8266Class) : Option (Int × ESP8266Class) :=
  match updateStatus polls d with
  | none => none
  | some (statusRet, d1) =>
      if statusRet > 0 then
        if d1._status.stat = ESP8266_STATUS_GOTIP ∨ d1._status.stat = ESP8266_STATUS_DISCONNECTED
            ∨ d1._status.stat = ESP8266_STATUS_CONNECTED then some (1, d1)
        else if d1._status.stat = ESP8266_STATUS_NOWIFI then some (0, d1)
        else some (statusRet, d1)
      else some (statusRet, d1)

/-- The members of `ESP8266Client` that the embedded methods use: the link id `_socket`
and the de-frame buffer. -/
structure ESP8266Client where
  _socket : Nat
  receiveBuffer : ESP8266ClientReadBuffer

/-- `ESP8266Client::connect(host, port, keepAlive)`; `pollsStatus` and `pollsConnect`
are the poll outcomes of the status refresh and of the connect command.  When
`getFirstSocket` gives `ESP8266_SOCK_NOT_AVAIL` control reaches the end of the function
without a `return`: the call has no defined result.  `tcpConnect` takes the keep-alive
as `uint16_t`. -/
def connect (pollsStatus pollsConnect : List (Option Nat)) (c : ESP8266Client)
    (d : ESP8266Class) (host : List Nat) (port keepAlive : Nat) :
    Option (Int × ESP8266Client × ESP8266Class) :=
  match getFirstSocket pollsStatus d with
  | none => none
  | some (sock, d1) =>
      let c1 : ESP8266Client := { c with _socket := sock }
      if sock ≠ ESP8266_SOCK_NOT_AVAIL then
        if h : sock < ESP8266_MAX_SOCK_NUM then
          let d2 : ESP8266Class := { d1 with _state := Function.update d1._state ⟨sock, h⟩ TAKEN }
          match tcpConnect pollsConnect d2 sock host port (keepAlive % 65536) with
          | none => none
          | some (rsp, d3) => some (rsp, c1, d3)
        else none
      else none

/-- `ESP8266Client::stop()`: close the link, then mark the slot available.  A `_socket`
outside `0..4` indexes `_state` outside the array. -/
def stop (polls : List (Option Nat)) (c : ESP8266Client) (d : ESP8266Class) :
    Option ESP8266Class :=
  match close polls d c._socket with
  | none => none
  | some (_, d1) =>
      if h : c._socket < ESP8266_MAX_SOCK_NUM then
        some { d1 with _state := Function.update d1._state ⟨c._socket, h⟩ AVAILABLE }
      else none

/-- `ESP8266ClientReadBuffer::available()`; `avail1` and `avail2` are the values of
`esp8266.available()` at its first and at its second call. -/
def available (avail1 avail2 : Nat) (s : ESP8266ClientReadBuffer) : Int :=
  if s.receiveBufferSize > 0 then s.receiveBufferSize
  else if avail1 = 0 then (avail2 : Int) else (avail1 : Int)

/-- `ESP8266Client::connected()`. -/
def connected (avail1 avail2 : Nat) (c : ESP8266Client) (d : ESP8266Class) : Nat :=
  if c._socket = ESP8266_SOCK_NOT_AVAIL then 0
  else if available avail1 avail2 c.receiveBuffer > 0 then 1
  else if d._status.stat = ESP8266_STATUS_CONNECTED then 1
  else 0

/-! ## Auxiliary definitions used in the statements and proofs -/

/-- The receive buffer after `clearBuffer()` and the bytes `bs`, fewer than 128. -/
def filled (bs : List Nat) : RxBuffer :=
  { esp8266RxBuffer := bs ++ List.replicate (ESP8266_RX_BUFFER_LEN - bs.length) 0,
    bufferHead := bs.length }

/-- The 128 bytes made of 124 times `x` and `OK\r\n`. -/
def fullReply : List Nat := List.replicate 124 120 ++ ascii "OK\r\n"

/-- The 129 bytes `xK\r\n`, NUL, 123 times `y`, `O`. -/
def wrapReply : List Nat := ascii "xK\r\n" ++ [0] ++ List.replicate 123 121 ++ [79]

/-- The reply `ERROR\r\n`, one byte per poll. -/
def errorPolls : List (Option Nat) := (ascii "ERROR\r\n").map some

/-- The reply `\r\nOK\r\n` with idle polls before, inside and after it. -/
def okPolls : List (Option Nat) :=
  [none, some 13, some 10, none, some 79, some 75, some 13, some 10, none]

/-- The reply `ERR` with an idle poll inside it. -/
def errPolls : List (Option Nat) := [some 69, none, some 82, some 82]

/-- The buffer is a 256-byte array and its length field is between 0 and 127. -/
def InRange (s : ESP8266ClientReadBuffer) : Prop :=
  s.receiveBuffer.length = ESP8266_CLIENT_MAX_BUFFER_SIZE ∧
  0 ≤ s.receiveBufferSize ∧ s.receiveBufferSize ≤ 127

/-- The number of `read()` calls made after all 17 bytes of the fixture have arrived,
`n` being the number of bytes arrived before the events. -/
def readsAfterAll : Nat → List Event → Nat
  | _, [] => 0
  | n, Event.arrive bytes :: evs => readsAfterAll (n + bytes.length) evs
  | n, Event.read :: evs => (if n = 17 then 1 else 0) + readsAfterAll n evs

/-- The fixture in two chunks, the first holding the header and `A`; `read()` is
called once after the first chunk and four times after the second. -/
def twoChunks : List Event :=
  [Event.arrive (FIXTURE.take 14), Event.read, Event.arrive (FIXTURE.drop 14),
    Event.read, Event.read, Event.read, Event.read]

/-- The fixture in two chunks, the first holding only `\r\n\r\n`; `read()` is called
once after the first chunk and four times after the second. -/
def splitMarker : List Event :=
  [Event.arrive (FIXTURE.take 4), Event.read, Event.arrive (FIXTURE.drop 4),
    Event.read, Event.read, Event.read, Event.read]

/-- An assignment to one field of a slot entry. -/
inductive SlotWrite where
  | linkID (v : Nat)
  | type (v : esp8266_connection_type)
  | octet (j : Fin 4) (v : Nat)
  | port (v : Nat)
  | tetype (v : esp8266_tetype)

/-- The effect of a field assignment on a slot entry. -/
def SlotWrite.apply : SlotWrite → esp8266_ipstatus → esp8266_ipstatus
  | SlotWrite.linkID v, e => { e with linkID := v }
  | SlotWrite.type v, e => { e with type := v }
  | SlotWrite.octet j v, e => { e with remoteIP := Function.update e.remoteIP j v }
  | SlotWrite.port v, e => { e with port := v }
  | SlotWrite.tetype v, e => { e with tetype := v }

/-- An assignment of `updateStatus` to the status table. -/
inductive Write where
  | stat (v : Int)
  | slot (k : Fin ESP8266_MAX_SOCK_NUM) (w : SlotWrite)

/-- The effect of an assignment on the table. -/
def Write.apply : Write → esp8266_status → esp8266_status
  | Write.stat v, st => { st with stat := v }
  | Write.slot k w, st => setSlot st k w.apply

/-- The effect of a sequence of assignments, first to last. -/
def applyAll (ws : List Write) (st : esp8266_status) : esp8266_status :=
  ws.foldl (fun s w => w.apply s) st

/-- The assignments `linkID = 255` to the slots listed. -/
def resetWrites (js : List (Fin ESP8266_MAX_SOCK_NUM)) : List Write :=
  js.map fun j => Write.slot j (SlotWrite.linkID 255)

/-- A step of the parse either has no defined result whatever the table, or returns a
value that does not depend on the table and applies a fixed sequence of assignments. -/
def Uniform {α : Type} (F : esp8266_status → Option (α × esp8266_status)) : Prop :=
  (∀ st, F st = none) ∨ ∃ a ws, ∀ st, F st = some (a, applyAll ws st)

/-- The receive buffer after the reply `replyLink0`. -/
def bufferLink0 : RxBuffer := replyLink0.foldl readByteToBuffer clearBuffer

/-- The `linkID` fields of the five slots of a table. -/
def linkIDs (st : esp8266_status) : List Nat :=
  [(st.ipstatus 0).linkID, (st.ipstatus 1).linkID, (st.ipstatus 2).linkID,
    (st.ipstatus 3).linkID, (st.ipstatus 4).linkID]

/-- The four octets of the remote address of a slot entry. -/
def octets (e : esp8266_ipstatus) : List Nat :=
  [e.remoteIP 0, e.remoteIP 1, e.remoteIP 2, e.remoteIP 3]

/-- The reply `CONNECT\r\n\r\nOK\r\n`, one byte per poll. -/
def connectPolls : List (Option Nat) := (ascii "CONNECT\r\n\r\nOK\r\n").map some

/-- The status table of the global driver object before any refresh has succeeded:
static storage is zero-initialised, so every field is 0 and no `linkID` is 255. -/
def zeroTable : esp8266_status :=
  { stat := 0,
    ipstatus := fun _ =>
      { linkID := 0, type := ESP8266_TCP, remoteIP := fun _ => 0, port := 0,
        tetype := ESP8266_CLIENT } }

/-- The driver state before any refresh has succeeded. -/
def freshDevice : ESP8266Class :=
  { tx := [], rxBuffer := clearBuffer, _status := zeroTable, _state := fun _ => AVAILABLE }

/-- A client bound to slot 0 with an empty de-frame buffer. -/
def client0 : ESP8266Client := { _socket := 0, receiveBuffer := emptyBuffer }

/-- A driver state in which slot 0 is taken and the last status snapshot has the station
status 3. -/
def takenDevice : ESP8266Class :=
  { tx := [], rxBuffer := clearBuffer, _status := link0Table,
    _state := fun k => if k.val = 0 then TAKEN else AVAILABLE }

/-- A status reply with the undocumented station status `7` and no link record, one
byte per poll. -/
def status7Polls : List (Option Nat) := (ascii "STATUS:7\r\n\r\nOK\r\n").map some

theorem strstr_isSome_iff (hay needle : List Nat) :
    (strstr hay needle).isSome = true ↔ needle <:+: hay := by
  induction hay with
  | nil =>
      cases needle <;> simp [strstr]
  | cons h t ih =>
      rw [List.infix_cons_iff]
      by_cases hp : needle.isPrefixOf (h :: t) = true
      · have hp2 : needle <+: h :: t := List.isPrefixOf_iff_prefix.mp hp
        simp [strstr, hp, hp2]
      · have hp2 : ¬ needle <+: h :: t := fun hh => hp (List.isPrefixOf_iff_prefix.mpr hh)
        simpa [strstr, hp, hp2] using ih

theorem strstr_eq_none_iff (hay needle : List Nat) :
    strstr hay needle = none ↔ ¬ needle <:+: hay := by
  rw [← strstr_isSome_iff]
  cases strstr hay needle <;> simp

theorem cstr_eq_self {l : List Nat} (h : 0 ∉ l) : cstr l = l := by
  unfold cstr
  rw [List.takeWhile_eq_self_iff]
  intro x hx
  have : x ≠ 0 := fun hx0 => h (hx0 ▸ hx)
  simpa using this

theorem cstr_pre (l : List Nat) : cstr l <+: l := List.takeWhile_prefix _

theorem cstr_append_zeros (bs : List Nat) (n : Nat) :
    cstr (bs ++ List.replicate (n + 1) 0) = cstr bs := by
  induction bs with
  | nil => simp [cstr, List.replicate_succ]
  | cons a t ih =>
      unfold cstr at ih ⊢
      by_cases ha : a = 0
      · simp [ha]
      · simp [List.takeWhile_cons, ha, ih]

theorem length_cstr_le (l : List Nat) : (cstr l).length ≤ l.length :=
  (cstr_pre l).length_le

/-! ## The receive buffer before it wraps -/

theorem clearBuffer_eq_filled : clearBuffer = filled [] := by
  simp [clearBuffer, filled]

theorem readByteToBuffer_filled (bs : List Nat) (c : Nat)
    (h : bs.length + 1 < ESP8266_RX_BUFFER_LEN) :
    readByteToBuffer (filled bs) c = filled (bs ++ [c]) := by
  unfold ESP8266_RX_BUFFER_LEN at h
  obtain ⟨m, hm⟩ : ∃ m, 128 - bs.length = m + 1 := ⟨128 - bs.length - 1, by omega⟩
  have hm2 : 128 - (bs.length + 1) = m := by omega
  simp [readByteToBuffer, filled, ESP8266_RX_BUFFER_LEN, hm, hm2, List.replicate_succ,
    List.set_append_right, Nat.mod_eq_of_lt h]

theorem searchBuffer_filled (bs test : List Nat) (h : bs.length < ESP8266_RX_BUFFER_LEN) :
    searchBuffer (filled bs) test = some (strstr (cstr bs) (cstr test)) := by
  unfold ESP8266_RX_BUFFER_LEN at h
  obtain ⟨m, hm⟩ : ∃ m, 128 - bs.length = m + 1 := ⟨128 - bs.length - 1, by omega⟩
  have hlen := length_cstr_le bs
  have hlt : (cstr bs).length < 128 := by omega
  simp [searchBuffer, filled, ESP8266_RX_BUFFER_LEN, hm, cstr_append_zeros, hlt]

theorem toInt16_small (n : Nat) (h : n < 32768) : toInt16 n = (n : Int) := by
  have h1 : n % 65536 = n := Nat.mod_eq_of_lt (by omega)
  simp [toInt16, h1, h]

/-! ## The polling loops while the buffer has not wrapped -/

theorem uint_small (n : Nat) (h : n < ESP8266_RX_BUFFER_LEN) : n % UINT_RANGE = n :=
  Nat.mod_eq_of_lt (by unfold ESP8266_RX_BUFFER_LEN at h; unfold UINT_RANGE; omega)

/-- No byte completes the token: the loop runs to the deadline. -/
theorem readForResponseLoop_no_match (rsp : List Nat) :
    ∀ (polls : List (Option Nat)) (bs : List Nat),
      bs.length + polls.reduceOption.length < ESP8266_RX_BUFFER_LEN →
      (∀ j, 1 ≤ j → j ≤ polls.reduceOption.length →
        strstr (cstr (bs ++ polls.reduceOption.take j)) (cstr rsp) = none) →
      result (readForResponseLoop rsp polls (filled bs) bs.length) =
        some (if bs.length + polls.reduceOption.length > 0 then ESP8266_RSP_UNKNOWN
              else ESP8266_RSP_TIMEOUT) := by
  intro polls
  induction polls with
  | nil => intro bs _ _; simp [readForResponseLoop, result]
  | cons p ps ih =>
      intro bs hlen hno
      cases p with
      | none =>
          simp only [List.reduceOption_cons_of_none] at hlen hno ⊢
          simpa [readForResponseLoop] using ih bs hlen hno
      | some c =>
          simp only [List.reduceOption_cons_of_some, List.length_cons] at hlen hno ⊢
          have h1 := hno 1 (le_refl _) (by omega)
          simp only [List.take_succ_cons, List.take_zero] at h1
          have hb : readByteToBuffer (filled bs) c = filled (bs ++ [c]) :=
            readByteToBuffer_filled bs c (by omega)
          have hs : searchBuffer (filled (bs ++ [c])) rsp = some none := by
            rw [searchBuffer_filled _ _ (by simp; omega), h1]
          have hr : (bs.length + 1) % UINT_RANGE = bs.length + 1 := uint_small _ (by omega)
          have h2 := ih (bs ++ [c]) (by simp; omega) (by
            intro j hj1 hj2
            have := hno (j + 1) (by omega) (by omega)
            simpa [List.take_succ_cons] using this)
          simp only [readForResponseLoop, hb, hs, hr]
          simp only [List.length_append, List.length_singleton] at h2
          rw [h2]
          have e : bs.length + 1 + ps.reduceOption.length = bs.length + (ps.reduceOption.length + 1) := by
            omega
          rw [e]

/-- Byte `k` is the first to complete the token: the loop returns the byte count. -/
theorem readForResponseLoop_match (rsp : List Nat) :
    ∀ (polls : List (Option Nat)) (bs : List Nat) (k : Nat),
      1 ≤ k → k ≤ polls.reduceOption.length →
      bs.length + k < ESP8266_RX_BUFFER_LEN →
      (∀ j, 1 ≤ j → j < k →
        strstr (cstr (bs ++ polls.reduceOption.take j)) (cstr rsp) = none) →
      (strstr (cstr (bs ++ polls.reduceOption.take k)) (cstr rsp)).isSome = true →
      result (readForResponseLoop rsp polls (filled bs) bs.length) = some ((bs.length + k : Nat) : Int) := by
  intro polls
  induction polls with
  | nil => intro bs k hk1 hk; simp at hk; omega
  | cons p ps ih =>
      intro bs k hk1 hk hlen hno hyes
      cases p with
      | none =>
          simp only [List.reduceOption_cons_of_none] at hk hno hyes
          simpa [readForResponseLoop] using ih bs k hk1 hk hlen hno hyes
      | some c =>
          simp only [List.reduceOption_cons_of_some, List.length_cons] at hk hno hyes
          have hb : readByteToBuffer (filled bs) c = filled (bs ++ [c]) :=
            readByteToBuffer_filled bs c (by omega)
          have hr : (bs.length + 1) % UINT_RANGE = bs.length + 1 := uint_small _ (by omega)
          have hsb := searchBuffer_filled (bs ++ [c]) rsp (by simp; omega)
          by_cases hk' : k = 1
          · subst hk'
            simp only [List.take_succ_cons, List.take_zero] at hyes
            obtain ⟨i, hi⟩ := Option.isSome_iff_exists.mp hyes
            rw [hi] at hsb
            simp only [readForResponseLoop, hb, hsb, hr]
            rw [toInt16_small _ (by unfold ESP8266_RX_BUFFER_LEN at hlen; omega)]
            rfl
          · have h1 := hno 1 (le_refl _) (by omega)
            simp only [List.take_succ_cons, List.take_zero] at h1
            rw [h1] at hsb
            obtain ⟨k0, rfl⟩ : ∃ k0, k = k0 + 1 := ⟨k - 1, by omega⟩
            have h2 := ih (bs ++ [c]) k0 (by omega) (by omega) (by simp; omega) (by
              intro j hj1 hj2
              have := hno (j + 1) (by omega) (by omega)
              simpa [List.take_succ_cons] using this) (by
              simpa [List.take_succ_cons] using hyes)
            simp only [readForResponseLoop, hb, hsb, hr]
            simp only [List.length_append, List.length_singleton] at h2
            rw [h2]
            congr 2
            omega

/-! ## Facts on received prefixes -/

theorem reduceOption_take_pre (polls : List (Option Nat)) (n : Nat) :
    (polls.take n).reduceOption <+: polls.reduceOption := by
  have h : polls.reduceOption =
      (polls.take n).reduceOption ++ (polls.drop n).reduceOption := by
    rw [← List.reduceOption_append, List.take_append_drop]
  exact ⟨_, h.symm⟩

theorem take_of_pre {r1 r : List Nat} (h : r1 <+: r) (j : Nat) (hj : j ≤ r1.length) :
    r1.take j = r.take j := by
  obtain ⟨t, rfl⟩ := h
  rw [List.take_append_of_le_length hj]

theorem not_infix_cstr_take {rsp reply : List Nat} {j : Nat}
    (h : ¬ rsp <:+: reply.take j) : strstr (cstr (reply.take j)) rsp = none := by
  rw [strstr_eq_none_iff]
  intro hc
  exact h (hc.trans (cstr_pre _).isInfix)

theorem infix_take_mono {rsp reply : List Nat} {j k : Nat} (hjk : j ≤ k)
    (h : rsp <:+: reply.take j) : rsp <:+: reply.take k :=
  h.trans (( List.take_prefix_take_left reply hjk).isInfix)

/-- The result of `readForResponse` on fewer than 128 bytes, by cases on whether some
byte completes the token in the buffer. -/
theorem readForResponse_cases (rsp : List Nat) (polls : List (Option Nat))
    (hlen : polls.reduceOption.length < ESP8266_RX_BUFFER_LEN) :
    (∃ k, 1 ≤ k ∧ k ≤ polls.reduceOption.length ∧
        (strstr (cstr (polls.reduceOption.take k)) (cstr rsp)).isSome = true ∧
        result (readForResponse rsp polls) = some (k : Int)) ∨
    ((∀ j, 1 ≤ j → j ≤ polls.reduceOption.length →
        strstr (cstr (polls.reduceOption.take j)) (cstr rsp) = none) ∧
      result (readForResponse rsp polls) =
        some (if polls.reduceOption.length > 0 then ESP8266_RSP_UNKNOWN
              else ESP8266_RSP_TIMEOUT)) := by
  by_cases hex : ∃ k, 1 ≤ k ∧ k ≤ polls.reduceOption.length ∧
      (strstr (cstr (polls.reduceOption.take k)) (cstr rsp)).isSome = true
  · left
    classical
    obtain ⟨k, ⟨hk1, hk, hyes⟩, hleast⟩ :
        ∃ k, (1 ≤ k ∧ k ≤ polls.reduceOption.length ∧
          (strstr (cstr (polls.reduceOption.take k)) (cstr rsp)).isSome = true) ∧
          ∀ j, j < k → ¬ (1 ≤ j ∧ j ≤ polls.reduceOption.length ∧
            (strstr (cstr (polls.reduceOption.take j)) (cstr rsp)).isSome = true) :=
      ⟨Nat.find hex, Nat.find_spec hex, fun j hj => Nat.find_min hex hj⟩
    refine ⟨k, hk1, hk, hyes, ?_⟩
    have hmin : ∀ j, 1 ≤ j → j < k →
        strstr (cstr ([] ++ polls.reduceOption.take j)) (cstr rsp) = none := by
      intro j hj1 hj2
      have hnot := hleast j hj2
      by_contra hne
      apply hnot
      refine ⟨hj1, by omega, ?_⟩
      cases hq : strstr (cstr (polls.reduceOption.take j)) (cstr rsp) with
      | none => simp [hq] at hne
      | some v => simp
    have := readForResponseLoop_match rsp polls [] k hk1 hk
      (by simp only [List.length_nil, Nat.zero_add]; omega) hmin
      (by simpa using hyes)
    simpa [readForResponse, clearBuffer_eq_filled] using this
  · right
    have hno : ∀ j, 1 ≤ j → j ≤ polls.reduceOption.length →
        strstr (cstr ([] ++ polls.reduceOption.take j)) (cstr rsp) = none := by
      intro j hj1 hj2
      by_contra hne
      apply hex
      refine ⟨j, hj1, hj2, ?_⟩
      cases hq : strstr (cstr (polls.reduceOption.take j)) (cstr rsp) with
      | none => simp [hq] at hne
      | some v => simp
    refine ⟨by simpa using hno, ?_⟩
    have := readForResponseLoop_no_match rsp polls [] (by simpa using hlen) hno
    simpa [readForResponse, clearBuffer_eq_filled] using this

/-! ## Command channel: results -/

/-- C1 (amended): when the reply arrives byte by byte before the deadline, byte `k` is
the first byte that completes an occurrence of the token in the reply, `k` is less than
the 128 bytes of the receive buffer and no NUL byte is among the first `k` bytes, then
`readForResponse` returns `k`; and had the deadline come after any number `n` of polls
with fewer than `k` bytes received, the result would not be positive. -/
theorem readForResponse_returns_first_match (rsp : List Nat) (polls : List (Option Nat))
    (k : Nat) (hrsp : 0 ∉ rsp) (hk1 : 1 ≤ k) (hk : k ≤ polls.reduceOption.length)
    (hbuf : k < ESP8266_RX_BUFFER_LEN)
    (hnul : 0 ∉ polls.reduceOption.take k)
    (hocc : rsp <:+: polls.reduceOption.take k)
    (hfirst : ∀ j, 1 ≤ j → j < k → ¬ rsp <:+: polls.reduceOption.take j) :
    result (readForResponse rsp polls) = some (k : Int) ∧
    ∀ n, (polls.take n).reduceOption.length < k →
      ∃ r, result (readForResponse rsp (polls.take n)) = some r ∧ r ≤ 0 := by
  have hc : cstr rsp = rsp := cstr_eq_self hrsp
  constructor
  · have := readForResponseLoop_match rsp polls [] k hk1 hk (by simpa using hbuf)
      (by
        intro j hj1 hj2
        rw [hc]
        simpa using not_infix_cstr_take (hfirst j hj1 hj2))
      (by
        rw [hc, List.nil_append, cstr_eq_self hnul, strstr_isSome_iff]
        exact hocc)
    simpa [readForResponse, clearBuffer_eq_filled] using this
  · intro n hn
    have hpre := reduceOption_take_pre polls n
    have := readForResponseLoop_no_match rsp (polls.take n) []
      (by simp only [List.length_nil, Nat.zero_add]; omega)
      (by
        intro j hj1 hj2
        rw [hc, List.nil_append, take_of_pre hpre j hj2]
        exact not_infix_cstr_take (hfirst j hj1 (by omega)))
    refine ⟨_, by simpa [readForResponse, clearBuffer_eq_filled] using this, ?_⟩
    split <;> simp [ESP8266_RSP_UNKNOWN, ESP8266_RSP_TIMEOUT]

/-- C1, witness: on the reply `\r\nOK\r\n` with idle polls in between the hypotheses
hold for `k = 6`, and the result is 6. -/
theorem readForResponse_returns_first_match_witness :
    (0 ∉ RESPONSE_OK ∧ 6 ≤ okPolls.reduceOption.length ∧ 6 < ESP8266_RX_BUFFER_LEN ∧
      0 ∉ okPolls.reduceOption.take 6 ∧ RESPONSE_OK <:+: okPolls.reduceOption.take 6 ∧
      ∀ j, 1 ≤ j → j < 6 → ¬ RESPONSE_OK <:+: okPolls.reduceOption.take j) ∧
    (result (readForResponse RESPONSE_OK okPolls) = some 6 ∧
      ∀ n, (okPolls.take n).reduceOption.length < 6 →
        ∃ r, result (readForResponse RESPONSE_OK (okPolls.take n)) = some r ∧ r ≤ 0) :=
  ⟨by decide,
    readForResponse_returns_first_match RESPONSE_OK okPolls 6
      (by decide) (by decide) (by decide) (by decide) (by decide) (by decide) (by decide)⟩

set_option maxRecDepth 100000 in
/-- C1, counterexample: in the reply NUL, `OK\r\n` the token is complete with byte 5
and not before, and `readForResponse` returns "unknown", not 5: the search is a C-string
search and stops at the NUL.  And on the 128-byte reply `fullReply`, in which byte 128
completes the token, the call has no defined result: the buffer is full and
`searchBuffer` ends without a `return`. -/
theorem readForResponse_nul_counterexample :
    RESPONSE_OK <:+: (0 :: ascii "OK\r\n").take 5 ∧
    (∀ j, j < 5 → ¬ RESPONSE_OK <:+: (0 :: ascii "OK\r\n").take j) ∧
    result (readForResponse RESPONSE_OK ((0 :: ascii "OK\r\n").map some)) =
      some ESP8266_RSP_UNKNOWN ∧
    result (readForResponse RESPONSE_OK ((0 :: ascii "OK\r\n").map some)) ≠ some 5 ∧
    RESPONSE_OK <:+: fullReply.take 128 ∧
    result (readForResponse RESPONSE_OK (fullReply.map some)) = none := by
  decide

/-- C2 (amended): for a reply of fewer than 128 bytes (the receive buffer does not
wrap): if the token never occurs in the reply, `readForResponse` returns "unknown" when
at least one byte was received and "timeout" when none was; a "timeout" result implies
that no byte was received and an "unknown" result that at least one was. -/
theorem readForResponse_unknown_or_timeout (rsp : List Nat) (polls : List (Option Nat))
    (hrsp : 0 ∉ rsp) (hlen : polls.reduceOption.length < ESP8266_RX_BUFFER_LEN) :
    (¬ rsp <:+: polls.reduceOption →
      result (readForResponse rsp polls) =
        some (if polls.reduceOption.length > 0 then ESP8266_RSP_UNKNOWN
              else ESP8266_RSP_TIMEOUT)) ∧
    (result (readForResponse rsp polls) = some ESP8266_RSP_TIMEOUT → polls.reduceOption.length = 0) ∧
    (result (readForResponse rsp polls) = some ESP8266_RSP_UNKNOWN → 0 < polls.reduceOption.length) := by
  have hc : cstr rsp = rsp := cstr_eq_self hrsp
  rcases readForResponse_cases rsp polls hlen with ⟨k, hk1, hk, hyes, hres⟩ | ⟨hno, hres⟩
  · refine ⟨?_, ?_, ?_⟩
    · intro habs
      exfalso
      rw [hc, strstr_isSome_iff] at hyes
      exact habs (hyes.trans ((cstr_pre _).trans ( List.take_prefix _ _)).isInfix)
    · intro h
      rw [hres] at h
      simp only [Option.some.injEq, ESP8266_RSP_TIMEOUT] at h
      omega
    · intro h
      rw [hres] at h
      simp only [Option.some.injEq, ESP8266_RSP_UNKNOWN] at h
      omega
  · refine ⟨fun _ => hres, ?_, ?_⟩
    · intro h
      rw [hres] at h
      by_contra hne
      have hpos : polls.reduceOption.length > 0 := by omega
      simp [hpos, ESP8266_RSP_UNKNOWN, ESP8266_RSP_TIMEOUT] at h
    · intro h
      rw [hres] at h
      by_contra hne
      have hz : ¬ polls.reduceOption.length > 0 := by omega
      simp [hz, ESP8266_RSP_UNKNOWN, ESP8266_RSP_TIMEOUT] at h

/-- C2, witness: the reply `ERR` to a wait for `OK\r\n` satisfies the hypotheses, and
the result is "unknown". -/
theorem readForResponse_unknown_or_timeout_witness :
    (0 ∉ RESPONSE_OK ∧ errPolls.reduceOption.length < ESP8266_RX_BUFFER_LEN ∧
      ¬ RESPONSE_OK <:+: errPolls.reduceOption) ∧
    result (readForResponse RESPONSE_OK errPolls) =
      some (if errPolls.reduceOption.length > 0 then ESP8266_RSP_UNKNOWN
            else ESP8266_RSP_TIMEOUT) :=
  ⟨by decide,
    (readForResponse_unknown_or_timeout RESPONSE_OK errPolls (by decide) (by decide)).1
      (by decide)⟩

set_option maxRecDepth 100000 in
/-- C2, counterexample: the 129-byte reply `wrapReply` never contains `OK\r\n`, and
`readForResponse` returns 129: byte 129 overwrites the first byte of the wrapped buffer,
which then reads `OK\r\n` up to the NUL at offset 4. -/
theorem readForResponse_wrap_counterexample :
    ¬ RESPONSE_OK <:+: wrapReply ∧
    result (readForResponse RESPONSE_OK (wrapReply.map some)) = some 129 := by
  decide

/-! ## `readForResponses` while the buffer has not wrapped -/

/-- Neither token is completed by any byte: the loop runs to the deadline. -/
theorem readForResponsesLoop_no_match (pass fail : List Nat) :
    ∀ (polls : List (Option Nat)) (bs : List Nat),
      bs.length + polls.reduceOption.length < ESP8266_RX_BUFFER_LEN →
      (∀ j, 1 ≤ j → j ≤ polls.reduceOption.length →
        strstr (cstr (bs ++ polls.reduceOption.take j)) (cstr pass) = none ∧
        strstr (cstr (bs ++ polls.reduceOption.take j)) (cstr fail) = none) →
      result (readForResponsesLoop pass fail polls (filled bs) bs.length) =
        some (if bs.length + polls.reduceOption.length > 0 then ESP8266_RSP_UNKNOWN
              else ESP8266_RSP_TIMEOUT) := by
  intro polls
  induction polls with
  | nil => intro bs _ _; simp [readForResponsesLoop, result]
  | cons p ps ih =>
      intro bs hlen hno
      cases p with
      | none =>
          simp only [List.reduceOption_cons_of_none] at hlen hno ⊢
          simpa [readForResponsesLoop] using ih bs hlen hno
      | some c =>
          simp only [List.reduceOption_cons_of_some, List.length_cons] at hlen hno ⊢
          have h1 := hno 1 (le_refl _) (by omega)
          simp only [List.take_succ_cons, List.take_zero] at h1
          have hb : readByteToBuffer (filled bs) c = filled (bs ++ [c]) :=
            readByteToBuffer_filled bs c (by omega)
          have hsp : searchBuffer (filled (bs ++ [c])) pass = some none := by
            rw [searchBuffer_filled _ _ (by simp; omega), h1.1]
          have hsf : searchBuffer (filled (bs ++ [c])) fail = some none := by
            rw [searchBuffer_filled _ _ (by simp; omega), h1.2]
          have hr : (bs.length + 1) % UINT_RANGE = bs.length + 1 := uint_small _ (by omega)
          have h2 := ih (bs ++ [c]) (by simp; omega) (by
            intro j hj1 hj2
            have := hno (j + 1) (by omega) (by omega)
            simpa [List.take_succ_cons] using this)
          simp only [readForResponsesLoop, hb, hsp, hsf, hr]
          simp only [List.length_append, List.length_singleton] at h2
          rw [h2]
          have e : bs.length + 1 + ps.reduceOption.length =
              bs.length + (ps.reduceOption.length + 1) := by omega
          rw [e]

/-- Byte `k` is the first to complete one of the tokens: the loop returns the byte
count when the pass token is complete, and "fail" otherwise. -/
theorem readForResponsesLoop_match (pass fail : List Nat) :
    ∀ (polls : List (Option Nat)) (bs : List Nat) (k : Nat),
      1 ≤ k → k ≤ polls.reduceOption.length →
      bs.length + k < ESP8266_RX_BUFFER_LEN →
      (∀ j, 1 ≤ j → j < k →
        strstr (cstr (bs ++ polls.reduceOption.take j)) (cstr pass) = none ∧
        strstr (cstr (bs ++ polls.reduceOption.take j)) (cstr fail) = none) →
      ((strstr (cstr (bs ++ polls.reduceOption.take k)) (cstr pass)).isSome = true ∨
        (strstr (cstr (bs ++ polls.reduceOption.take k)) (cstr fail)).isSome = true) →
      result (readForResponsesLoop pass fail polls (filled bs) bs.length) =
        some (if (strstr (cstr (bs ++ polls.reduceOption.take k)) (cstr pass)).isSome = true
              then ((bs.length + k : Nat) : Int) else ESP8266_RSP_FAIL) := by
  intro polls
  induction polls with
  | nil => intro bs k hk1 hk; simp at hk; omega
  | cons p ps ih =>
      intro bs k hk1 hk hlen hno hyes
      cases p with
      | none =>
          simp only [List.reduceOption_cons_of_none] at hk hno hyes ⊢
          simpa [readForResponsesLoop] using ih bs k hk1 hk hlen hno hyes
      | some c =>
          simp only [List.reduceOption_cons_of_some, List.length_cons] at hk hno hyes ⊢
          have hb : readByteToBuffer (filled bs) c = filled (bs ++ [c]) :=
            readByteToBuffer_filled bs c (by omega)
          have hr : (bs.length + 1) % UINT_RANGE = bs.length + 1 := uint_small _ (by omega)
          have hsp := searchBuffer_filled (bs ++ [c]) pass (by simp; omega)
          have hsf := searchBuffer_filled (bs ++ [c]) fail (by simp; omega)
          by_cases hk' : k = 1
          · subst hk'
            simp only [List.take_succ_cons, List.take_zero] at hyes ⊢
            obtain hp | ⟨i, hp⟩ : strstr (cstr (bs ++ [c])) (cstr pass) = none ∨
                ∃ i, strstr (cstr (bs ++ [c])) (cstr pass) = some i := by
              cases strstr (cstr (bs ++ [c])) (cstr pass) <;> simp
            · rw [hp] at hsp
              simp only [hp, Option.isSome_none, Bool.false_eq_true, false_or] at hyes
              obtain ⟨i, hi⟩ := Option.isSome_iff_exists.mp hyes
              rw [hi] at hsf
              simp [readForResponsesLoop, hb, hsp, hsf, hp, result]
            · rw [hp] at hsp
              simp only [readForResponsesLoop, hb, hsp, hr, hp]
              rw [toInt16_small _ (by unfold ESP8266_RX_BUFFER_LEN at hlen; omega)]
              simp [result]
          · have h1 := hno 1 (le_refl _) (by omega)
            simp only [List.take_succ_cons, List.take_zero] at h1
            rw [h1.1] at hsp
            rw [h1.2] at hsf
            obtain ⟨k0, rfl⟩ : ∃ k0, k = k0 + 1 := ⟨k - 1, by omega⟩
            have h2 := ih (bs ++ [c]) k0 (by omega) (by omega) (by simp; omega) (by
              intro j hj1 hj2
              have := hno (j + 1) (by omega) (by omega)
              simpa [List.take_succ_cons] using this) (by
              simpa [List.take_succ_cons] using hyes)
            simp only [readForResponsesLoop, hb, hsp, hsf, hr]
            simp only [List.length_append, List.length_singleton, List.append_assoc,
              List.singleton_append] at h2
            rw [h2]
            simp only [List.take_succ_cons]
            have e : bs.length + 1 + k0 = bs.length + (k0 + 1) := by omega
            rw [e]

theorem not_mem_take {reply : List Nat} (hr : 0 ∉ reply) (j : Nat) : 0 ∉ reply.take j :=
  fun h => hr (List.mem_of_mem_take h)

theorem hit_iff {tok reply : List Nat} (ht : 0 ∉ tok) (hr : 0 ∉ reply) (j : Nat) :
    (strstr (cstr ([] ++ reply.take j)) (cstr tok)).isSome = true ↔ tok <:+: reply.take j := by
  rw [List.nil_append, cstr_eq_self ht, cstr_eq_self (not_mem_take hr j), strstr_isSome_iff]

theorem miss_iff {tok reply : List Nat} (ht : 0 ∉ tok) (hr : 0 ∉ reply) (j : Nat) :
    strstr (cstr ([] ++ reply.take j)) (cstr tok) = none ↔ ¬ tok <:+: reply.take j := by
  rw [List.nil_append, cstr_eq_self ht, cstr_eq_self (not_mem_take hr j), strstr_eq_none_iff]

/-- C3 (amended): for a reply without NUL bytes and shorter than the 128-byte receive
buffer, delivered before the deadline: `readForResponses` returns "fail" if and only if
there is a first byte after which the fail token occurs in the bytes received while the
pass token does not occur in them; and if byte `k` is the first to complete the pass token
and the fail token is not complete before byte `k`, it returns `k`. -/
theorem readForResponses_fail_iff (pass fail : List Nat) (polls : List (Option Nat))
    (hpass : 0 ∉ pass) (hfail : 0 ∉ fail) (hnul : 0 ∉ polls.reduceOption)
    (hlen : polls.reduceOption.length < ESP8266_RX_BUFFER_LEN) :
    (result (readForResponses pass fail polls) = some ESP8266_RSP_FAIL ↔
      ∃ k, 1 ≤ k ∧ k ≤ polls.reduceOption.length ∧
        fail <:+: polls.reduceOption.take k ∧
        (∀ j, 1 ≤ j → j < k → ¬ fail <:+: polls.reduceOption.take j) ∧
        ¬ pass <:+: polls.reduceOption.take k) ∧
    (∀ k, 1 ≤ k → k ≤ polls.reduceOption.length →
      pass <:+: polls.reduceOption.take k →
      (∀ j, 1 ≤ j → j < k →
        ¬ pass <:+: polls.reduceOption.take j ∧ ¬ fail <:+: polls.reduceOption.take j) →
      result (readForResponses pass fail polls) = some (k : Int)) := by
  classical
  by_cases hex : ∃ k, 1 ≤ k ∧ k ≤ polls.reduceOption.length ∧
      (pass <:+: polls.reduceOption.take k ∨ fail <:+: polls.reduceOption.take k)
  · obtain ⟨k, ⟨hk1, hk, hev⟩, hleast⟩ :
        ∃ k, (1 ≤ k ∧ k ≤ polls.reduceOption.length ∧
          (pass <:+: polls.reduceOption.take k ∨ fail <:+: polls.reduceOption.take k)) ∧
          ∀ j, j < k → ¬ (1 ≤ j ∧ j ≤ polls.reduceOption.length ∧
            (pass <:+: polls.reduceOption.take j ∨ fail <:+: polls.reduceOption.take j)) :=
      ⟨Nat.find hex, Nat.find_spec hex, fun j hj => Nat.find_min hex hj⟩
    have hbefore : ∀ j, 1 ≤ j → j < k →
        ¬ pass <:+: polls.reduceOption.take j ∧ ¬ fail <:+: polls.reduceOption.take j := by
      intro j hj1 hj2
      have := hleast j hj2
      constructor
      · intro h; exact this ⟨hj1, by omega, Or.inl h⟩
      · intro h; exact this ⟨hj1, by omega, Or.inr h⟩
    have hres := readForResponsesLoop_match pass fail polls [] k hk1 hk
      (by simp only [List.length_nil, Nat.zero_add]; omega)
      (by
        intro j hj1 hj2
        exact ⟨(miss_iff hpass hnul j).mpr (hbefore j hj1 hj2).1,
          (miss_iff hfail hnul j).mpr (hbefore j hj1 hj2).2⟩)
      (by
        rcases hev with h | h
        · exact Or.inl ((hit_iff hpass hnul k).mpr h)
        · exact Or.inr ((hit_iff hfail hnul k).mpr h))
    have hres2 : result (readForResponses pass fail polls) =
        some (if pass <:+: polls.reduceOption.take k then (k : Int) else ESP8266_RSP_FAIL) := by
      unfold readForResponses
      rw [clearBuffer_eq_filled]
      by_cases hp : pass <:+: polls.reduceOption.take k
      · have hp2 := (hit_iff hpass hnul k).mpr hp
        rw [show (0 : Nat) = ([] : List Nat).length from rfl, hres, if_pos hp2, if_pos hp]
        simp
      · have hp2 : ¬ (strstr (cstr ([] ++ polls.reduceOption.take k)) (cstr pass)).isSome = true :=
          fun h => hp ((hit_iff hpass hnul k).mp h)
        rw [show (0 : Nat) = ([] : List Nat).length from rfl, hres, if_neg hp2, if_neg hp]
    refine ⟨⟨?_, ?_⟩, ?_⟩
    · intro h
      rw [hres2] at h
      by_cases hp : pass <:+: polls.reduceOption.take k
      · simp only [hp, if_true, Option.some.injEq, ESP8266_RSP_FAIL] at h
        omega
      · refine ⟨k, hk1, hk, ?_, fun j hj1 hj2 => (hbefore j hj1 hj2).2, hp⟩
        rcases hev with h1 | h1
        · exact absurd h1 hp
        · exact h1
    · rintro ⟨k1, hk11, hk1n, hf, hffirst, hnp⟩
      have hkk : k = k1 := by
        rcases Nat.lt_trichotomy k k1 with hlt | heq | hgt
        · exfalso
          rcases hev with h1 | h1
          · exact hnp (infix_take_mono (Nat.le_of_lt hlt) h1)
          · exact hffirst k hk1 hlt h1
        · exact heq
        · exact absurd ⟨hk11, hk1n, Or.inr hf⟩ (hleast k1 hgt)
      subst hkk
      rw [hres2]
      simp [hnp]
    · intro k1 hk11 hk1n hp hnone
      have hkk : k = k1 := by
        rcases Nat.lt_trichotomy k k1 with hlt | heq | hgt
        · exfalso
          rcases hev with h1 | h1
          · exact (hnone k hk1 hlt).1 h1
          · exact (hnone k hk1 hlt).2 h1
        · exact heq
        · exact absurd ⟨hk11, hk1n, Or.inl hp⟩ (hleast k1 hgt)
      subst hkk
      rw [hres2]
      simp [hp]
  · have hres := readForResponsesLoop_no_match pass fail polls []
      (by simpa using hlen)
      (by
        intro j hj1 hj2
        constructor
        · exact (miss_iff hpass hnul j).mpr (fun h => hex ⟨j, hj1, hj2, Or.inl h⟩)
        · exact (miss_iff hfail hnul j).mpr (fun h => hex ⟨j, hj1, hj2, Or.inr h⟩))
    have hres2 : result (readForResponses pass fail polls) =
        some (if polls.reduceOption.length > 0 then ESP8266_RSP_UNKNOWN
              else ESP8266_RSP_TIMEOUT) := by
      simpa [readForResponses, clearBuffer_eq_filled] using hres
    refine ⟨⟨?_, ?_⟩, ?_⟩
    · intro h
      rw [hres2] at h
      exfalso
      split at h <;> simp [ESP8266_RSP_UNKNOWN, ESP8266_RSP_TIMEOUT, ESP8266_RSP_FAIL] at h
    · rintro ⟨k1, hk11, hk1n, hf, -, -⟩
      exact absurd ⟨k1, hk11, hk1n, Or.inr hf⟩ hex
    · intro k1 hk11 hk1n hp _
      exact absurd ⟨k1, hk11, hk1n, Or.inl hp⟩ hex

/-- C3, witness: on the reply `ERROR\r\n` the hypotheses hold and the result is "fail". -/
theorem readForResponses_fail_iff_witness :
    (0 ∉ RESPONSE_OK ∧ 0 ∉ RESPONSE_ERROR ∧ 0 ∉ errorPolls.reduceOption ∧
      errorPolls.reduceOption.length < ESP8266_RX_BUFFER_LEN) ∧
    result (readForResponses RESPONSE_OK RESPONSE_ERROR errorPolls) = some ESP8266_RSP_FAIL :=
  ⟨by decide,
    (readForResponses_fail_iff RESPONSE_OK RESPONSE_ERROR errorPolls
      (by decide) (by decide) (by decide) (by decide)).1.2
      ⟨7, by decide, by decide, by decide, by decide, by decide⟩⟩

/-- C3, counterexample: after the 8 bytes NUL, `ERROR\r\n` the fail token lies in the
receive buffer (with byte 8 and not before) and the pass token does not, and
`readForResponses` returns "unknown", not "fail". -/
theorem readForResponses_nul_counterexample :
    RESPONSE_ERROR <:+:
      (readByteToBuffer (readByteToBuffer (readByteToBuffer (readByteToBuffer
        (readByteToBuffer (readByteToBuffer (readByteToBuffer (readByteToBuffer
          clearBuffer 0) 69) 82) 82) 79) 82) 13) 10).esp8266RxBuffer ∧
    RESPONSE_ERROR <:+: (0 :: ascii "ERROR\r\n").take 8 ∧
    (∀ j, j < 8 → ¬ RESPONSE_ERROR <:+: (0 :: ascii "ERROR\r\n").take j) ∧
    ¬ RESPONSE_OK <:+: (0 :: ascii "ERROR\r\n").take 8 ∧
    result (readForResponses RESPONSE_OK RESPONSE_ERROR ((0 :: ascii "ERROR\r\n").map some)) =
      some ESP8266_RSP_UNKNOWN ∧
    result (readForResponses RESPONSE_OK RESPONSE_ERROR ((0 :: ascii "ERROR\r\n").map some)) ≠
      some ESP8266_RSP_FAIL := by
  decide

/-! ## Sending a command -/

/-- C4: for every command code `c` and parameter string `p` (C strings),
`sendCommand` appends to the transport exactly `AT c \r\n` for an execute command,
`AT c ? \r\n` for a query and `AT c = p \r\n` for a setup command. -/
theorem sendCommand_writes (tx c p : List Nat) (hc : 0 ∉ c) (hp : 0 ∉ p) :
    sendCommand tx c ESP8266_CMD_EXECUTE p = tx ++ (ascii "AT" ++ c ++ ascii "\r\n") ∧
    sendCommand tx c ESP8266_CMD_QUERY p =
      tx ++ (ascii "AT" ++ c ++ ascii "?" ++ ascii "\r\n") ∧
    sendCommand tx c ESP8266_CMD_SETUP p =
      tx ++ (ascii "AT" ++ c ++ ascii "=" ++ p ++ ascii "\r\n") := by
  have hAT : cstr (ascii "AT") = ascii "AT" := by decide
  have hEQ : cstr (ascii "=") = ascii "=" := by decide
  have hCRLF : cstr (ascii "\r\n") = ascii "\r\n" := by decide
  have hQ : ascii "?" = [63] := by decide
  refine ⟨?_, ?_, ?_⟩
  · simp [sendCommand, print, hAT, hCRLF, cstr_eq_self hc]
  · simp [sendCommand, print, printChar, hAT, hCRLF, hQ, cstr_eq_self hc]
  · simp [sendCommand, print, hAT, hEQ, hCRLF, cstr_eq_self hc, cstr_eq_self hp]

/-- C4, witness: `AT+CIPCLOSE=0` followed by CR LF is what the close command writes. -/
theorem sendCommand_writes_witness :
    (0 ∉ ESP8266_TCP_CLOSE ∧ 0 ∉ ascii "0") ∧
    sendCommand [] ESP8266_TCP_CLOSE ESP8266_CMD_SETUP (ascii "0") =
      [] ++ (ascii "AT" ++ ESP8266_TCP_CLOSE ++ ascii "=" ++ ascii "0" ++ ascii "\r\n") :=
  ⟨by decide, (sendCommand_writes [] ESP8266_TCP_CLOSE (ascii "0") (by decide) (by decide)).2.2⟩

/-! ## The de-frame buffer -/

theorem length_shiftLeft (len : Nat) :
    ∀ (n i : Nat) (buf : List Nat), (shiftLeft len n i buf).length = buf.length := by
  intro n
  induction n with
  | zero => intro i buf; rfl
  | succ n ih => intro i buf; simp [shiftLeft, ih]

theorem getElem?_shiftLeft (len : Nat) :
    ∀ (n i : Nat) (buf : List Nat) (j : Nat), i + n + len ≤ buf.length →
      (shiftLeft len n i buf)[j]? = if i ≤ j ∧ j < i + n then buf[j + len]? else buf[j]? := by
  intro n
  induction n with
  | zero =>
      intro i buf j _
      have : ¬ (i ≤ j ∧ j < i) := by omega
      simp [shiftLeft, this]
  | succ n ih =>
      intro i buf j h
      have hv : buf.getD (i + len) 0 = buf[i + len]?.getD 0 := List.getD_eq_getElem?_getD _ _ _
      have hin : i + len < buf.length := by omega
      rw [shiftLeft, ih (i + 1) _ j (by simp; omega)]
      by_cases h1 : i + 1 ≤ j ∧ j < i + 1 + n
      · have h2 : i ≤ j ∧ j < i + (n + 1) := by omega
        rw [if_pos h1, if_pos h2, List.getElem?_set_ne (by omega)]
      · rw [if_neg h1]
        by_cases h3 : j = i
        · subst h3
          have h2 : j ≤ j ∧ j < j + (n + 1) := by omega
          rw [if_pos h2, List.getElem?_set, if_pos rfl, if_pos (by omega), hv,
            List.getElem?_eq_getElem hin]
          rfl
        · have h2 : ¬ (i ≤ j ∧ j < i + (n + 1)) := by omega
          rw [if_neg h2, List.getElem?_set_ne (fun h => h3 h.symm)]

theorem toChar_small (i : Int) (h0 : 0 ≤ i) (h1 : i ≤ 127) : toChar i = i := by
  unfold toChar
  omega

/-- `truncateReceiveBufferHead` removes `len` bytes at `off` from the logical content. -/
theorem truncate_content (s : ESP8266ClientReadBuffer) (off len : Nat) (hs : InRange s)
    (h : off + len ≤ s.receiveBufferSize.toNat) :
    InRange (truncateReceiveBufferHead s off len) ∧
    (truncateReceiveBufferHead s off len).receiveBufferSize = s.receiveBufferSize - len ∧
    content (truncateReceiveBufferHead s off len) =
      (content s).take off ++ (content s).drop (off + len) := by
  obtain ⟨hlen, h0, h127⟩ := hs
  obtain ⟨m, hm⟩ : ∃ m : Nat, s.receiveBufferSize = (m : Int) := ⟨_, (Int.toNat_of_nonneg h0).symm⟩
  unfold ESP8266_CLIENT_MAX_BUFFER_SIZE at hlen
  rw [hm] at h h127
  simp only [Int.toNat_ofNat] at h
  have hm127 : m ≤ 127 := by omega
  have hsz : toChar ((m : Int) - (len : Int)) = ((m - len : Nat) : Int) := by
    rw [toChar_small _ (by omega) (by omega)]
    omega
  have hcnt : ((m : Int) - (len : Int) - (off : Int)).toNat = m - len - off := by omega
  refine ⟨⟨?_, ?_, ?_⟩, ?_, ?_⟩
  · simp [truncateReceiveBufferHead, length_shiftLeft, hlen, ESP8266_CLIENT_MAX_BUFFER_SIZE]
  · simp only [truncateReceiveBufferHead, hm, hsz]; omega
  · simp only [truncateReceiveBufferHead, hm, hsz]; omega
  · simp only [truncateReceiveBufferHead, hm, hsz]; omega
  · simp only [content, truncateReceiveBufferHead, hm, hsz, hcnt, Int.toNat_ofNat]
    apply List.ext_getElem?
    intro j
    rw [List.getElem?_take, getElem?_shiftLeft _ _ _ _ _ (by omega), List.getElem?_append]
    simp only [List.length_take, List.getElem?_take, List.getElem?_drop]
    by_cases hj : j < m - len
    · rw [if_pos hj]
      by_cases hjo : j < off
      · have e1 : ¬ (off ≤ j ∧ j < off + (m - len - off)) := by omega
        have e2 : j < min off (min m s.receiveBuffer.length) := by omega
        rw [if_neg e1, if_pos e2, if_pos hjo, if_pos (by omega)]
      · have e1 : off ≤ j ∧ j < off + (m - len - off) := by omega
        have e2 : ¬ j < min off (min m s.receiveBuffer.length) := by omega
        have e3 : off + len + (j - min off (min m s.receiveBuffer.length)) = j + len := by omega
        rw [if_pos e1, if_neg e2, e3, if_pos (by omega)]
    · rw [if_neg hj]
      have e2 : ¬ j < min off (min m s.receiveBuffer.length) := by omega
      rw [if_neg e2, if_neg (by omega)]

theorem length_content (s : ESP8266ClientReadBuffer) (hs : InRange s) :
    ((content s).length : Int) = s.receiveBufferSize := by
  obtain ⟨hlen, h0, h127⟩ := hs
  unfold ESP8266_CLIENT_MAX_BUFFER_SIZE at hlen
  simp only [content, List.length_take, hlen]
  omega

/-- Draining the transport appends its bytes to the logical content. -/
theorem drain_content :
    ∀ (rx : List Nat) (s : ESP8266ClientReadBuffer), InRange s →
      (content s).length + rx.length ≤ 127 →
      ∃ s1, drainAvailable rx s = some s1 ∧ InRange s1 ∧ content s1 = content s ++ rx := by
  intro rx
  induction rx with
  | nil => intro s hs _; exact ⟨s, rfl, hs, by simp⟩
  | cons c rx ih =>
      intro s hs hsum
      have hl := length_content s hs
      obtain ⟨hlen, h0, h127⟩ := hs
      obtain ⟨m, hm⟩ : ∃ m : Nat, s.receiveBufferSize = (m : Int) :=
        ⟨_, (Int.toNat_of_nonneg h0).symm⟩
      simp only [List.length_cons] at hsum
      have hm1 : (content s).length = m := by omega
      have hm126 : m + 1 ≤ 127 := by omega
      have hfill : fillByte s c = some
          { receiveBuffer := s.receiveBuffer.set m c, receiveBufferSize := ((m + 1 : Nat) : Int) } := by
        have e : toChar ((m : Int) + 1) = ((m + 1 : Nat) : Int) := by
          rw [toChar_small _ (by omega) (by omega)]; omega
        simp [fillByte, hm, ESP8266_CLIENT_MAX_BUFFER_SIZE, e]
        omega
      have hs1 : InRange { receiveBuffer := s.receiveBuffer.set m c,
                           receiveBufferSize := ((m + 1 : Nat) : Int) } := by
        refine ⟨by simpa using hlen, by simp; omega, by simp; omega⟩
      have hc1 : content { receiveBuffer := s.receiveBuffer.set m c,
                           receiveBufferSize := ((m + 1 : Nat) : Int) } = content s ++ [c] := by
        unfold ESP8266_CLIENT_MAX_BUFFER_SIZE at hlen
        simp only [content, hm, Int.toNat_ofNat]
        apply List.ext_getElem?
        intro j
        rw [List.getElem?_take, List.getElem?_append, List.getElem?_set]
        simp only [List.length_take, List.getElem?_take, hlen]
        by_cases hj : j < m
        · rw [if_pos (by omega), if_neg (by omega), if_pos (by omega), if_pos hj]
        · by_cases hj2 : j = m
          · subst hj2
            rw [if_pos (by omega), if_pos rfl, if_pos (by omega), if_neg (by omega)]
            have e : j - min j 256 = 0 := by omega
            rw [e]
            rfl
          · rw [if_neg (by omega), if_neg (by omega)]
            have : j - min m 256 ≠ 0 := by omega
            cases hq : j - min m 256 with
            | zero => exact absurd hq this
            | succ q => simp
      obtain ⟨s2, hd, hs2, hc2⟩ := ih _ hs1 (by rw [hc1]; simp; omega)
      refine ⟨s2, ?_, hs2, ?_⟩
      · rw [drainAvailable, hfill]; exact hd
      · rw [hc2, hc1]; simp

theorem length_IPD_MARKER : IPD_MARKER.length = 8 := by decide

theorem cstr_IPD_MARKER : cstr IPD_MARKER = IPD_MARKER := by decide

/-- With fewer than 8 bytes in the buffer the de-framing pass does nothing. -/
theorem clean_short (s : ESP8266ClientReadBuffer) (h : s.receiveBufferSize < 8) :
    cleanReceiveBufferFromAT s = s := by
  have hc : (s.receiveBufferSize - 8 + 1).toNat = 0 := by omega
  simp [cleanReceiveBufferFromAT, cleanReceiveBufferFromATWith, cstr_IPD_MARKER,
    length_IPD_MARKER, hc, findAT]

/-- A marker at the start of the content is removed together with 5 more bytes. -/
theorem clean_marker (s : ESP8266ClientReadBuffer) (rest : List Nat) (hs : InRange s)
    (hc : content s = IPD_MARKER ++ rest) (h5 : 5 ≤ rest.length) :
    InRange (cleanReceiveBufferFromAT s) ∧
    content (cleanReceiveBufferFromAT s) = rest.drop 5 := by
  have hl := length_content s hs
  rw [hc, List.length_append, length_IPD_MARKER] at hl
  obtain ⟨q, hq⟩ : ∃ q, (s.receiveBufferSize - 8 + 1).toNat = q + 1 :=
    ⟨(s.receiveBufferSize - 8).toNat, by omega⟩
  have htake : (s.receiveBuffer.drop 0).take 8 = IPD_MARKER.take 8 := by
    have h1 : (content s).take 8 = IPD_MARKER := by
      rw [hc, List.take_append_of_le_length (by rw [length_IPD_MARKER])]
      exact List.take_of_length_le (by rw [length_IPD_MARKER])
    have h2 : (content s).take 8 = s.receiveBuffer.take 8 := by
      unfold content
      rw [List.take_take]
      congr 1
      omega
    have h3 : IPD_MARKER.take 8 = IPD_MARKER := by decide
    rw [List.drop_zero, ← h2, h1, h3]
  have hclean : cleanReceiveBufferFromAT s = truncateReceiveBufferHead s 0 13 := by
    rw [List.drop_zero] at htake
    simp [cleanReceiveBufferFromAT, cleanReceiveBufferFromATWith, cstr_IPD_MARKER,
      length_IPD_MARKER, hq, findAT, htake]
  obtain ⟨hr, -, hcont⟩ := truncate_content s 0 13 hs (by omega)
  rw [hclean]
  refine ⟨hr, ?_⟩
  rw [hcont, hc]
  simp only [List.take_zero, List.nil_append, Nat.zero_add]
  rw [List.drop_append_eq_append_drop, length_IPD_MARKER]
  have : List.drop 13 IPD_MARKER = [] := by decide
  rw [this]
  rfl

theorem fill_short (rx : List Nat) (s : ESP8266ClientReadBuffer) (hs : InRange s)
    (h : (content s ++ rx).length < 8) :
    ∃ s1, fillReceiveBuffer rx s = some s1 ∧ InRange s1 ∧ content s1 = content s ++ rx := by
  rw [List.length_append] at h
  obtain ⟨s1, hd, hs1, hc1⟩ := drain_content rx s hs (by omega)
  have hl := length_content s1 hs1
  rw [hc1, List.length_append] at hl
  refine ⟨s1, ?_, hs1, hc1⟩
  simp only [fillReceiveBuffer, hd, Option.map_some']
  rw [clean_short s1 (by omega)]

theorem fill_marker (rx : List Nat) (s : ESP8266ClientReadBuffer) (rest : List Nat)
    (hs : InRange s) (hc : content s ++ rx = IPD_MARKER ++ rest) (h5 : 5 ≤ rest.length)
    (h127 : (content s ++ rx).length ≤ 127) :
    ∃ s1, fillReceiveBuffer rx s = some s1 ∧ InRange s1 ∧ content s1 = rest.drop 5 := by
  rw [List.length_append] at h127
  obtain ⟨s1, hd, hs1, hc1⟩ := drain_content rx s hs h127
  obtain ⟨hr, hcont⟩ := clean_marker s1 rest hs1 (hc1.trans hc) h5
  exact ⟨_, by simp only [fillReceiveBuffer, hd, Option.map_some'], hr, hcont⟩

/-- After the fill step has left the content `r`, `read()` returns the first byte of
`r` and leaves the rest, or returns -1 when `r` is empty. -/
theorem read_result (rx : List Nat) (s : ESP8266ClientReadBuffer) (r : List Nat)
    (hfill : ∃ s1, fillReceiveBuffer rx s = some s1 ∧ InRange s1 ∧ content s1 = r) :
    ∃ s2, InRange s2 ∧ content s2 = r.tail ∧
      read rx s = some ((match r with | [] => (-1 : Int) | a :: _ => (a : Int)), s2) := by
  obtain ⟨s1, hf, hs1, hc1⟩ := hfill
  have hl := length_content s1 hs1
  rw [hc1] at hl
  cases r with
  | nil =>
      refine ⟨s1, hs1, hc1, ?_⟩
      have : ¬ s1.receiveBufferSize > 0 := by simp at hl; omega
      simp [read, hf, this]
  | cons a t =>
      have hpos : s1.receiveBufferSize > 0 := by simp at hl; omega
      obtain ⟨hr, -, hcont⟩ := truncate_content s1 0 1 hs1 (by omega)
      refine ⟨truncateReceiveBufferHead s1 0 1, hr, ?_, ?_⟩
      · rw [hcont, hc1]; rfl
      · have hget : s1.receiveBuffer.getD 0 0 = a := by
          obtain ⟨q, hq⟩ : ∃ q, s1.receiveBufferSize.toNat = q + 1 :=
            ⟨s1.receiveBufferSize.toNat - 1, by omega⟩
          unfold content at hc1
          rw [hq] at hc1
          cases hb : s1.receiveBuffer with
          | nil => rw [hb] at hc1; simp at hc1
          | cons b bs =>
              rw [hb] at hc1
              simp only [List.take_succ_cons, List.cons.injEq] at hc1
              simp [hc1.1]
        rw [List.getD_eq_getElem?_getD] at hget
        simp [read, hf, hpos, hget]

theorem length_FIXTURE : FIXTURE.length = 17 := by decide

theorem fixture_payload :
    ((FIXTURE.take 17).drop 13).map (fun c : Nat => (c : Int)) = PAYLOAD := by decide

theorem fixture_take_marker (n : Nat) (h : 13 ≤ n) :
    FIXTURE.take n = IPD_MARKER ++ (FIXTURE.take n).drop 8 ∧
    5 ≤ ((FIXTURE.take n).drop 8).length ∧
    ((FIXTURE.take n).drop 8).drop 5 = (FIXTURE.take n).drop 13 := by
  have h8 : (FIXTURE.take n).take 8 = IPD_MARKER := by
    rw [List.take_take]
    have : min 8 n = 8 := by omega
    rw [this]
    decide
  refine ⟨?_, ?_, ?_⟩
  · conv_lhs => rw [← List.take_append_drop 8 (FIXTURE.take n)]
    rw [h8]
  · simp only [List.length_drop, List.length_take, length_FIXTURE]
    omega
  · rw [List.drop_drop]

/-- The invariant of the de-framer on the fixture: before the first `read()` that sees
the header the buffer is empty and the transport holds what has arrived; afterwards
the values returned, the buffer content and the transport content make up the payload
bytes that have arrived. -/
theorem run_fixture_inv :
    ∀ (evs : List Event) (n : Nat) (rx : List Nat) (s : ESP8266ClientReadBuffer)
      (got : List Int),
      InRange s → n ≤ 17 → arrivals evs = FIXTURE.drop n → headerComplete n evs = true →
      ((content s = [] ∧ got = [] ∧ rx = FIXTURE.take n) ∨
        (13 ≤ n ∧ got ++ (content s ++ rx).map (fun c : Nat => (c : Int)) =
          ((FIXTURE.take n).drop 13).map (fun c : Nat => (c : Int)))) →
      ∃ outs, run evs rx s = some outs ∧
        got ++ outs.filter (fun v => decide (0 ≤ v)) <+: PAYLOAD ∧
        (4 ≤ got.length + readsAfterAll n evs →
          4 ≤ got.length + (outs.filter (fun v => decide (0 ≤ v))).length) := by
  intro evs
  induction evs with
  | nil =>
      intro n rx s got _ hn harr _ hinv
      have hn17 : n = 17 := by
        have : FIXTURE.length ≤ n := List.drop_eq_nil_iff.mp harr.symm
        rw [length_FIXTURE] at this
        omega
      subst hn17
      refine ⟨[], rfl, ?_, ?_⟩
      · rcases hinv with ⟨-, hg, -⟩ | ⟨-, hg⟩
        · rw [hg]; exact List.nil_prefix
        · rw [fixture_payload] at hg
          simp only [List.filter_nil, List.append_nil]
          exact ⟨_, hg⟩
      · intro h; simpa using h
  | cons e evs ih =>
      intro n rx s got hs hn harr hsafe hinv
      cases e with
      | arrive bytes =>
          simp only [arrivals] at harr
          simp only [headerComplete] at hsafe
          have hlen : bytes.length + (arrivals evs).length = 17 - n := by
            have := congrArg List.length harr
            simpa [length_FIXTURE] using this
          have hb : (FIXTURE.drop n).take bytes.length = bytes := by
            rw [← harr]; simp
          have harr2 : arrivals evs = FIXTURE.drop (n + bytes.length) := by
            have : (FIXTURE.drop n).drop bytes.length = arrivals evs := by
              rw [← harr]; simp
            rw [← this, List.drop_drop]
          have htake : FIXTURE.take (n + bytes.length) = FIXTURE.take n ++ bytes := by
            rw [List.take_add, hb]
          have hinv2 : (content s = [] ∧ got = [] ∧ rx ++ bytes = FIXTURE.take (n + bytes.length)) ∨
              (13 ≤ n + bytes.length ∧
                got ++ (content s ++ (rx ++ bytes)).map (fun c : Nat => (c : Int)) =
                ((FIXTURE.take (n + bytes.length)).drop 13).map (fun c : Nat => (c : Int))) := by
            rcases hinv with ⟨hc, hg, hrx⟩ | ⟨h13, hg⟩
            · left; exact ⟨hc, hg, by rw [hrx, htake]⟩
            · right
              refine ⟨by omega, ?_⟩
              have hd : (FIXTURE.take n ++ bytes).drop 13 = (FIXTURE.take n).drop 13 ++ bytes := by
                apply List.drop_append_of_le_length
                simp only [List.length_take, length_FIXTURE]
                omega
              rw [htake, hd]
              have := congrArg (fun l => l ++ bytes.map (fun c : Nat => (c : Int))) hg
              simpa [List.map_append, List.append_assoc] using this
          obtain ⟨outs, hrun, hpre, hcnt⟩ := ih (n + bytes.length) (rx ++ bytes) s got hs
            (by omega) harr2 hsafe hinv2
          exact ⟨outs, by simpa [run] using hrun, hpre, by simpa [readsAfterAll] using hcnt⟩
      | read =>
          simp only [arrivals] at harr
          simp only [headerComplete, Bool.and_eq_true, Bool.or_eq_true, decide_eq_true_eq] at hsafe
          obtain ⟨hn0, hsafe2⟩ := hsafe
          -- the content `r` left by the fill step
          obtain ⟨r, hfill, hr, hphase⟩ : ∃ r : List Nat,
              (∃ s1, fillReceiveBuffer rx s = some s1 ∧ InRange s1 ∧ content s1 = r) ∧
              got ++ r.map (fun c : Nat => (c : Int)) =
                ((FIXTURE.take n).drop 13).map (fun c : Nat => (c : Int)) ∧
              (13 ≤ n ∨ (n = 0 ∧ r = [] ∧ got = [])) := by
            rcases hinv with ⟨hc, hg, hrx⟩ | ⟨h13, hg⟩
            · rcases hn0 with h0 | h13
              · subst h0
                refine ⟨[], ?_, by simp [hg], Or.inr ⟨rfl, rfl, hg⟩⟩
                have := fill_short rx s hs (by rw [hc, hrx]; simp)
                simpa [hc, hrx] using this
              · obtain ⟨hm1, hm2, hm3⟩ := fixture_take_marker n h13
                refine ⟨(FIXTURE.take n).drop 13, ?_, by simp [hg], Or.inl h13⟩
                have := fill_marker rx s _ hs (by rw [hc, hrx, List.nil_append]; exact hm1) hm2
                  (by rw [hc, hrx]; simp only [List.nil_append, List.length_take, length_FIXTURE]; omega)
                rw [hm3] at this
                exact this
            · have hl : got.length + (content s ++ rx).length ≤ 4 := by
                have := congrArg List.length hg
                simp only [List.length_append, List.length_map, List.length_drop,
                  List.length_take, length_FIXTURE] at this
                simp only [List.length_append]
                omega
              exact ⟨content s ++ rx, fill_short rx s hs (by omega), hg, Or.inl h13⟩
          obtain ⟨s2, hs2, hc2, hread⟩ := read_result rx s r hfill
          cases r with
          | nil =>
              have hinv2 : (content s2 = [] ∧ got = [] ∧ ([] : List Nat) = FIXTURE.take n) ∨
                  (13 ≤ n ∧ got ++ (content s2 ++ []).map (fun c : Nat => (c : Int)) =
                    ((FIXTURE.take n).drop 13).map (fun c : Nat => (c : Int))) := by
                rcases hphase with h13 | ⟨h0, -, hg⟩
                · right; exact ⟨h13, by simpa [hc2] using hr⟩
                · left; subst h0; exact ⟨by simpa using hc2, hg, rfl⟩
              obtain ⟨outs, hrun, hpre, hcnt⟩ := ih n [] s2 got hs2 hn harr hsafe2 hinv2
              refine ⟨(-1) :: outs, ?_, ?_, ?_⟩
              · simp [run, hread, hrun]
              · simpa using hpre
              · intro h4
                simp only [readsAfterAll] at h4
                have hf : List.filter (fun v => decide (0 ≤ v)) ((-1 : Int) :: outs) =
                    List.filter (fun v => decide (0 ≤ v)) outs := by simp
                rw [hf]
                by_cases h17 : n = 17
                · subst h17
                  rw [fixture_payload] at hr
                  have : got.length = 4 := by
                    have := congrArg List.length hr
                    simpa [PAYLOAD] using this
                  omega
                · rw [if_neg h17] at h4
                  exact hcnt (by omega)
          | cons a t =>
              have h13 : 13 ≤ n := by
                rcases hphase with h13 | ⟨-, hnil, -⟩
                · exact h13
                · exact absurd hnil (by simp)
              have hinv2 : (content s2 = [] ∧ got ++ [(a : Int)] = [] ∧
                    ([] : List Nat) = FIXTURE.take n) ∨
                  (13 ≤ n ∧ (got ++ [(a : Int)]) ++
                      (content s2 ++ []).map (fun c : Nat => (c : Int)) =
                    ((FIXTURE.take n).drop 13).map (fun c : Nat => (c : Int))) := by
                right
                refine ⟨h13, ?_⟩
                rw [← hr, hc2]
                simp
              obtain ⟨outs, hrun, hpre, hcnt⟩ :=
                ih n [] s2 (got ++ [(a : Int)]) hs2 hn harr hsafe2 hinv2
              have hf : List.filter (fun v => decide (0 ≤ v)) ((a : Int) :: outs) =
                  (a : Int) :: List.filter (fun v => decide (0 ≤ v)) outs := by
                simp
              refine ⟨(a : Int) :: outs, ?_, ?_, ?_⟩
              · simp [run, hread, hrun]
              · rw [hf]; simpa using hpre
              · intro h4
                simp only [readsAfterAll] at h4
                rw [hf]
                have hlen1 : (got ++ [(a : Int)]).length = got.length + 1 := by simp
                have h4b : 4 ≤ (got ++ [(a : Int)]).length + readsAfterAll n evs := by
                  rw [hlen1]
                  split at h4 <;> omega
                have := hcnt h4b
                rw [hlen1] at this
                simp only [List.length_cons]
                omega

/-- C5 (amended): starting from an empty de-frame buffer, for every way of delivering
the fixture `\r\n\r\n+IPD,0,4:ABCD` in chunks between `read()` calls such that no
`read()` is called while between 1 and 12 of its bytes have arrived (the first call that
sees data sees the whole 13-byte header), every `read()` returns, the non-negative
values returned are an initial part of `A`,`B`,`C`,`D`, and they are exactly
`A`,`B`,`C`,`D` when at least four calls are made after the last byte has arrived. -/
theorem read_yields_payload (evs : List Event) (buf : List Nat)
    (hbuf : buf.length = ESP8266_CLIENT_MAX_BUFFER_SIZE)
    (harr : arrivals evs = FIXTURE) (hsafe : headerComplete 0 evs = true) :
    ∃ outs, run evs [] { receiveBufferSize := 0, receiveBuffer := buf } = some outs ∧
      outs.filter (fun v => decide (0 ≤ v)) <+: PAYLOAD ∧
      (4 ≤ readsAfterAll 0 evs → outs.filter (fun v => decide (0 ≤ v)) = PAYLOAD) := by
  have hs : InRange { receiveBufferSize := 0, receiveBuffer := buf } :=
    ⟨hbuf, by simp, by simp⟩
  obtain ⟨outs, hrun, hpre, hcnt⟩ := run_fixture_inv evs 0 []
    { receiveBufferSize := 0, receiveBuffer := buf } [] hs (by omega) (by simpa using harr)
    hsafe (Or.inl ⟨by simp [content], rfl, by simp⟩)
  simp only [List.nil_append, List.length_nil, Nat.zero_add] at hpre hcnt
  refine ⟨outs, hrun, hpre, fun h4 => ?_⟩
  apply hpre.eq_of_length
  have h1 := hpre.length_le
  have h2 := hcnt h4
  have h3 : PAYLOAD.length = 4 := rfl
  omega

/-- C5, witness: the fixture split after `A` satisfies the hypotheses, and the reads
return `A`, `B`, `C`, `D`. -/
theorem read_yields_payload_witness :
    (emptyBuffer.receiveBuffer.length = ESP8266_CLIENT_MAX_BUFFER_SIZE ∧
      arrivals twoChunks = FIXTURE ∧ headerComplete 0 twoChunks = true ∧
      4 ≤ readsAfterAll 0 twoChunks) ∧
    ∃ outs, run twoChunks [] emptyBuffer = some outs ∧
      outs.filter (fun v => decide (0 ≤ v)) = PAYLOAD :=
  have h1 : emptyBuffer.receiveBuffer.length = ESP8266_CLIENT_MAX_BUFFER_SIZE :=
    List.length_replicate _ _
  have h2 : arrivals twoChunks = FIXTURE := by decide
  have h3 : headerComplete 0 twoChunks = true := by decide
  have h4 : 4 ≤ readsAfterAll 0 twoChunks := by decide
  ⟨⟨h1, h2, h3, h4⟩,
    let ⟨outs, hrun, _, hall⟩ := read_yields_payload twoChunks emptyBuffer.receiveBuffer h1 h2 h3
    ⟨outs, hrun, hall h4⟩⟩

/-- C5, counterexample: when the fixture is split after `\r\n\r\n` and `read()` is
called after the first chunk, the values returned are the framing bytes CR, LF, CR, LF
and `+`, not `A`, `B`, `C`, `D`. -/
theorem read_split_marker_counterexample :
    arrivals splitMarker = FIXTURE ∧
    run splitMarker [] emptyBuffer = some [13, 10, 13, 10, 43] := by
  decide

/-- C6 (the code at the failing input): for socket 0 and the 10-byte payload
`ABCDEFGHIJ` the de-framing pass leaves `:ABCDEFGHIJ`, 11 bytes, in the buffer: it
removes the marker and 5 bytes, and the part `,0,10:` has 6. -/
theorem cleanReceiveBufferFromAT_two_digit_count :
    content (cleanReceiveBufferFromAT
      (bufferHolding (ascii "\r\n\r\n+IPD,0,10:ABCDEFGHIJ"))) = ascii ":ABCDEFGHIJ" ∧
    (cleanReceiveBufferFromAT
      (bufferHolding (ascii "\r\n\r\n+IPD,0,10:ABCDEFGHIJ"))).receiveBufferSize = 11 := by
  decide

/-! ## The status table: assignments -/

theorem slotWrite_pair (v w : SlotWrite) :
    (∀ e, v.apply (w.apply e) = v.apply e) ∨
    (∀ e, v.apply (w.apply e) = w.apply (v.apply e)) := by
  cases v <;> cases w <;>
    first
    | (left; intro e; rfl)
    | (right; intro e; rfl)
    | skip
  rename_i j v j2 v2
  by_cases hj : j = j2
  · subst hj
    left
    intro e
    simp [SlotWrite.apply]
  · right
    intro e
    simp only [SlotWrite.apply]
    rw [Function.update_comm hj]

theorem slotWrite_idem (v : SlotWrite) (e : esp8266_ipstatus) :
    v.apply (v.apply e) = v.apply e := by
  cases v <;> simp [SlotWrite.apply]

theorem write_pair (v w : Write) :
    (∀ t, v.apply (w.apply t) = v.apply t) ∨
    (∀ t, v.apply (w.apply t) = w.apply (v.apply t)) := by
  cases v with
  | stat a =>
      cases w with
      | stat b => left; intro t; rfl
      | slot k w => right; intro t; rfl
  | slot k v =>
      cases w with
      | stat b => right; intro t; rfl
      | slot k2 w =>
          by_cases hk : k = k2
          · subst hk
            rcases slotWrite_pair v w with h | h
            · left
              intro t
              simp [Write.apply, setSlot, h]
            · right
              intro t
              simp [Write.apply, setSlot, h]
          · right
            intro t
            have hk2 : k2 ≠ k := fun h => hk h.symm
            simp only [Write.apply, setSlot, Function.update_noteq hk, Function.update_noteq hk2]
            rw [Function.update_comm hk]

theorem write_idem (v : Write) (t : esp8266_status) : v.apply (v.apply t) = v.apply t := by
  cases v with
  | stat a => rfl
  | slot k v => simp [Write.apply, setSlot, slotWrite_idem]

theorem applyAll_cons (w : Write) (ws : List Write) (t : esp8266_status) :
    applyAll (w :: ws) t = applyAll ws (w.apply t) := rfl

theorem applyAll_append (ws1 ws2 : List Write) (t : esp8266_status) :
    applyAll (ws1 ++ ws2) t = applyAll ws2 (applyAll ws1 t) := by
  simp [applyAll, List.foldl_append]

/-- An assignment made again after a sequence of assignments makes its earlier
occurrence irrelevant. -/
theorem write_absorb (w : Write) :
    ∀ (ws : List Write) (t : esp8266_status),
      w.apply (applyAll ws (w.apply t)) = w.apply (applyAll ws t) := by
  intro ws
  induction ws with
  | nil => intro t; exact write_idem w t
  | cons v ws ih =>
      intro t
      rw [applyAll_cons, applyAll_cons]
      rcases write_pair v w with h | h
      · rw [h]
      · rw [h, ih]

/-- Applying a sequence of assignments twice is the same as applying it once. -/
theorem applyAll_idem (ws : List Write) :
    ∀ t, applyAll ws (applyAll ws t) = applyAll ws t := by
  induction ws using List.reverseRecOn with
  | nil => intro t; rfl
  | append_singleton ws w ih =>
      intro t
      rw [applyAll_append, applyAll_append]
      show w.apply (applyAll ws (w.apply (applyAll ws t))) = w.apply (applyAll ws t)
      rw [write_absorb, ih]

theorem applyAll_resetWrites (js : List (Fin ESP8266_MAX_SOCK_NUM)) :
    ∀ st, applyAll (resetWrites js) st =
      { st with ipstatus := fun j =>
          if j ∈ js then { st.ipstatus j with linkID := 255 } else st.ipstatus j } := by
  induction js with
  | nil => intro st; simp [resetWrites, applyAll]
  | cons a js ih =>
      intro st
      have hcons : resetWrites (a :: js) = Write.slot a (SlotWrite.linkID 255) :: resetWrites js :=
        rfl
      rw [hcons, applyAll_cons, ih]
      simp only [Write.apply, setSlot, SlotWrite.apply]
      congr 1
      funext j
      by_cases hja : j = a
      · subst hja
        by_cases hj : j ∈ js <;> simp [hj]
      · by_cases hj : j ∈ js <;> simp [hj, hja, Function.update_noteq hja]

theorem resetFrom_eq (i : Nat) (st : esp8266_status) :
    resetFrom i st =
      applyAll (resetWrites ((List.finRange ESP8266_MAX_SOCK_NUM).filter fun j => i ≤ j.val)) st := by
  rw [applyAll_resetWrites]
  simp only [resetFrom]
  congr 1
  funext j
  simp [List.mem_filter, List.mem_finRange]

/-! ## The status parse as a sequence of assignments -/

theorem uniform_parseOctets (buf : List Nat) (k : Fin ESP8266_MAX_SOCK_NUM) :
    ∀ (js : List (Fin 4)) (p : Nat), Uniform (parseOctets buf k js p) := by
  intro js
  induction js with
  | nil => intro p; exact Or.inr ⟨p, [], fun st => rfl⟩
  | cons j js ih =>
      intro p
      cases h1 : cstrAt buf p with
      | none => exact Or.inl fun st => by simp [parseOctets, h1]
      | some str =>
          by_cases h2 : strspnDigits str < 4
          · rcases ih (p + (strspnDigits str + 1)) with h | ⟨a, ws, h⟩
            · exact Or.inl fun st => by simp [parseOctets, h1, h2, h]
            · refine Or.inr ⟨a, Write.slot k (SlotWrite.octet j
                (atoiDigits (str.take (strspnDigits str)) % 256)) :: ws, fun st => ?_⟩
              simp only [parseOctets, h1, h2, if_true, h]
              rfl
          · exact Or.inl fun st => by simp [parseOctets, h1, h2]

theorem uniform_updateStatusLoop (buf : List Nat) (rsp : Int) :
    ∀ (n i p : Nat), Uniform (updateStatusLoop buf rsp n i p) := by
  intro n
  induction n with
  | zero => intro i p; exact Or.inr ⟨rsp, [], fun st => rfl⟩
  | succ n ih =>
      intro i p
      cases h1 : cstrAt buf p with
      | none => exact Or.inl fun st => by simp [updateStatusLoop, h1]
      | some str =>
      cases h2 : strstr str CIPSTATUS_MARKER with
      | none =>
          refine Or.inr ⟨rsp,
            resetWrites ((List.finRange ESP8266_MAX_SOCK_NUM).filter fun j => i ≤ j.val),
            fun st => ?_⟩
          simp only [updateStatusLoop, h1, h2]
          rw [resetFrom_eq]
      | some off =>
      cases h3 : peek buf (p + off + CIPSTATUS_MARKER.length) with
      | none => exact Or.inl fun st => by simp [updateStatusLoop, h1, h2, h3]
      | some c =>
      by_cases h4 : toUInt8 ((c : Int) - 48) < ESP8266_MAX_SOCK_NUM
      swap
      · exact Or.inr ⟨rsp, [], fun st => by simp [updateStatusLoop, h1, h2, h3, h4]; rfl⟩
      cases h5 : peek buf (p + off + CIPSTATUS_MARKER.length + 3) with
      | none => exact Or.inl fun st => by simp [updateStatusLoop, h1, h2, h3, h4, h5]
      | some t =>
      rcases uniform_parseOctets buf ⟨_, h4⟩ [0, 1, 2, 3]
          (p + off + CIPSTATUS_MARKER.length + 3 + 6) with ho | ⟨p4, wso, ho⟩
      · exact Or.inl fun st => by simp [updateStatusLoop, h1, h2, h3, h4, h5, ho]
      cases h6 : cstrAt buf (p4 + 1) with
      | none => exact Or.inl fun st => by simp [updateStatusLoop, h1, h2, h3, h4, h5, ho, h6]
      | some str5 =>
      by_cases h7 : strspnDigits str5 < 6
      swap
      · exact Or.inl fun st => by simp [updateStatusLoop, h1, h2, h3, h4, h5, ho, h6, h7]
      cases h8 : peek buf (p4 + 1 + (strspnDigits str5 + 1)) with
      | none =>
          exact Or.inl fun st => by simp [updateStatusLoop, h1, h2, h3, h4, h5, ho, h6, h7, h8]
      | some r =>
      rcases ih (i + 1) (p4 + 1 + (strspnDigits str5 + 1)) with hl | ⟨a, wsl, hl⟩
      · exact Or.inl fun st => by
          simp [updateStatusLoop, h1, h2, h3, h4, h5, ho, h6, h7, h8, hl]
      have hw1 : ∀ st : esp8266_status,
          setSlot st ⟨_, h4⟩ (fun e => { e with linkID := toUInt8 ((c : Int) - 48) }) =
            (Write.slot ⟨_, h4⟩ (SlotWrite.linkID (toUInt8 ((c : Int) - 48)))).apply st :=
        fun _ => rfl
      have hw2 : ∀ st : esp8266_status,
          setSlot st ⟨_, h4⟩ (fun e => { e with type :=
              if t = 84 then ESP8266_TCP else if t = 85 then ESP8266_UDP
              else ESP8266_TYPE_UNDEFINED }) =
            (Write.slot ⟨_, h4⟩ (SlotWrite.type
              (if t = 84 then ESP8266_TCP else if t = 85 then ESP8266_UDP
               else ESP8266_TYPE_UNDEFINED))).apply st :=
        fun _ => rfl
      have hw3 : ∀ st : esp8266_status,
          setSlot st ⟨_, h4⟩
              (fun e => { e with port := atoiDigits (str5.take (strspnDigits str5)) % 65536 }) =
            (Write.slot ⟨_, h4⟩ (SlotWrite.port
              (atoiDigits (str5.take (strspnDigits str5)) % 65536))).apply st :=
        fun _ => rfl
      have hw4 : ∀ (v : esp8266_tetype) (st : esp8266_status),
          setSlot st ⟨_, h4⟩ (fun e => { e with tetype := v }) =
            (Write.slot ⟨_, h4⟩ (SlotWrite.tetype v)).apply st :=
        fun _ _ => rfl
      by_cases hr0 : r = 48
      · refine Or.inr ⟨a,
          [Write.slot ⟨_, h4⟩ (SlotWrite.linkID (toUInt8 ((c : Int) - 48))),
            Write.slot ⟨_, h4⟩ (SlotWrite.type
              (if t = 84 then ESP8266_TCP else if t = 85 then ESP8266_UDP
               else ESP8266_TYPE_UNDEFINED))] ++ wso ++
          [Write.slot ⟨_, h4⟩ (SlotWrite.port
              (atoiDigits (str5.take (strspnDigits str5)) % 65536)),
            Write.slot ⟨_, h4⟩ (SlotWrite.tetype ESP8266_CLIENT)] ++ wsl, fun st => ?_⟩
        simp only [updateStatusLoop, h1, h2, h3, h4, dif_pos, h5, ho, h6, h7, if_true, h8, hr0,
          hl, hw1, hw2, hw3, hw4, applyAll_append, applyAll_cons]
        rfl
      by_cases hr1 : r = 49
      · refine Or.inr ⟨a,
          [Write.slot ⟨_, h4⟩ (SlotWrite.linkID (toUInt8 ((c : Int) - 48))),
            Write.slot ⟨_, h4⟩ (SlotWrite.type
              (if t = 84 then ESP8266_TCP else if t = 85 then ESP8266_UDP
               else ESP8266_TYPE_UNDEFINED))] ++ wso ++
          [Write.slot ⟨_, h4⟩ (SlotWrite.port
              (atoiDigits (str5.take (strspnDigits str5)) % 65536)),
            Write.slot ⟨_, h4⟩ (SlotWrite.tetype ESP8266_SERVER)] ++ wsl, fun st => ?_⟩
        simp only [updateStatusLoop, h1, h2, h3, h4, dif_pos, h5, ho, h6, h7, if_true, h8, hr0,
          hr1, if_false, hl, hw1, hw2, hw3, hw4, applyAll_append, applyAll_cons]
        rfl
      · refine Or.inr ⟨a,
          [Write.slot ⟨_, h4⟩ (SlotWrite.linkID (toUInt8 ((c : Int) - 48))),
            Write.slot ⟨_, h4⟩ (SlotWrite.type
              (if t = 84 then ESP8266_TCP else if t = 85 then ESP8266_UDP
               else ESP8266_TYPE_UNDEFINED))] ++ wso ++
          [Write.slot ⟨_, h4⟩ (SlotWrite.port
              (atoiDigits (str5.take (strspnDigits str5)) % 65536))] ++ wsl, fun st => ?_⟩
        simp only [updateStatusLoop, h1, h2, h3, h4, dif_pos, h5, ho, h6, h7, if_true, h8, hr0,
          hr1, if_false, hl, hw1, hw2, hw3, applyAll_append, applyAll_cons]
        rfl

theorem uniform_updateStatusParse (b : RxBuffer) (rsp : Int) :
    Uniform (updateStatusParse b rsp) := by
  by_cases h0 : rsp > 0
  swap
  · exact Or.inr ⟨rsp, [], fun st => by simp [updateStatusParse, h0]; rfl⟩
  cases h1 : searchBuffer b (ascii "STATUS:") with
  | none => exact Or.inl fun st => by simp [updateStatusParse, h0, h1]
  | some o =>
  cases o with
  | none => exact Or.inr ⟨ESP8266_RSP_UNKNOWN, [], fun st => by simp [updateStatusParse, h0, h1]; rfl⟩
  | some off =>
  cases h2 : peek b.esp8266RxBuffer (off + (ascii "STATUS:").length) with
  | none => exact Or.inl fun st => by simp [updateStatusParse, h0, h1, h2]
  | some c =>
  rcases uniform_updateStatusLoop b.esp8266RxBuffer rsp ESP8266_MAX_SOCK_NUM 0
      (off + (ascii "STATUS:").length) with hl | ⟨a, ws, hl⟩
  · exact Or.inl fun st => by simp [updateStatusParse, h0, h1, h2, hl]
  · refine Or.inr ⟨a, Write.stat (toChar (c : Int) - 48) :: ws, fun st => ?_⟩
    simp only [updateStatusParse, h0, if_true, h1, h2, hl]
    rfl

/-! ## The status table: results -/

set_option maxRecDepth 100000 in
/-- C7 (the code at the failing input): the table records link 0 as active from an
earlier refresh, and the status reply reports link 1 as the only active link.
`getFirstSocket` returns 1, a link the reply reports as active, and not 0, the lowest
link the reply reports as free. -/
theorem getFirstSocket_returns_active_link :
    (getFirstSocket (replyLink1.map some) link0Device).map Prod.fst = some 1 := by
  decide

set_option maxRecDepth 100000 in
/-- C8 (the code at the failing input): for the reply that holds one record, for link 1,
`updateStatus` returns the positive byte count 60 and leaves `linkID` 255 in slot 1 (the
record of link 1 is the first one, so the reset loop starts at slot 1) and the earlier
value 0 in slot 0. -/
theorem updateStatus_resets_reported_link :
    (updateStatus (replyLink1.map some) link0Device).map
      (fun r => (r.1, linkIDs r.2._status)) = some (60, [0, 255, 255, 255, 255]) := by
  decide

set_option maxRecDepth 100000 in
/-- C9 (the code at the failing input): for the record
`+CIPSTATUS:0,"TCP","192.168.0.5",80,1234,0` slot 0 receives the protocol TCP, the
address 192.168.0.5 and the port 80, and the role `ESP8266_SERVER`: the role is read
from the first digit of the local port 1234, not from the last field, which is 0. -/
theorem updateStatus_reads_role_from_local_port :
    (updateStatus (replyLink0.map some) link0Device).map
      (fun r => (r.2._status.ipstatus 0).type) = some ESP8266_TCP ∧
    (updateStatus (replyLink0.map some) link0Device).map
      (fun r => octets (r.2._status.ipstatus 0)) = some [192, 168, 0, 5] ∧
    (updateStatus (replyLink0.map some) link0Device).map
      (fun r => (r.2._status.ipstatus 0).port) = some 80 ∧
    (updateStatus (replyLink0.map some) link0Device).map
      (fun r => (r.2._status.ipstatus 0).tetype) = some ESP8266_SERVER := by
  decide

/-- C10: for every receive buffer left by a status reply and every initial table, when
the parse of `updateStatus` returns, running it again on the same buffer from the table
it produced returns the same value and the same table (station status and link slots);
and whether the parse returns does not depend on the table. -/
theorem updateStatusParse_idempotent (b : RxBuffer) (rsp : Int) (st st1 : esp8266_status)
    (r1 : Int) (h : updateStatusParse b rsp st = some (r1, st1)) :
    updateStatusParse b rsp st1 = some (r1, st1) ∧
    ∀ st2, (updateStatusParse b rsp st2).isSome = true := by
  rcases uniform_updateStatusParse b rsp with hn | ⟨a, ws, hu⟩
  · rw [hn] at h
    exact absurd h (by simp)
  · have h1 := hu st
    rw [h] at h1
    simp only [Option.some.injEq, Prod.mk.injEq] at h1
    obtain ⟨ha, hst⟩ := h1
    refine ⟨?_, fun st2 => by rw [hu st2]; rfl⟩
    rw [hu st1, hst, applyAll_idem, ha]

set_option maxRecDepth 100000 in
/-- C10, witness: the parse of the reply that reports link 0 returns, and returns the
same value and table when run again. -/
theorem updateStatusParse_idempotent_witness :
    ∃ r1 st1, updateStatusParse bufferLink0 60 link0Table = some (r1, st1) ∧
      updateStatusParse bufferLink0 60 st1 = some (r1, st1) :=
  have hs : (updateStatusParse bufferLink0 60 link0Table).isSome = true := by decide
  let ⟨x, hx⟩ := Option.isSome_iff_exists.mp hs
  ⟨x.1, x.2, hx, (updateStatusParse_idempotent bufferLink0 60 link0Table x.2 x.1 hx).1⟩

/-! ## TCP/IP commands -/

/-- C11: for every link id and every payload of more than 2048 bytes `tcpSend` returns
`ESP8266_CMD_BAD` and leaves the driver state as it was: no byte, of a command line or
of the payload, is written to the transport. -/
theorem tcpSend_rejects_large_payload (polls1 polls2 : List (Option Nat)) (d : ESP8266Class)
    (linkID : Nat) (buf : List Nat) (h : 2048 < buf.length) :
    tcpSend polls1 polls2 d linkID buf = some (ESP8266_CMD_BAD, d) ∧
    (tcpSend polls1 polls2 d linkID buf).map (fun r => r.2.tx) = some d.tx := by
  have h1 : tcpSend polls1 polls2 d linkID buf = some (ESP8266_CMD_BAD, d) := by
    simp [tcpSend, h]
  exact ⟨h1, by rw [h1]; rfl⟩

/-- C11, witness: a payload of 2049 bytes for link 0 is rejected and nothing is
written. -/
theorem tcpSend_rejects_large_payload_witness :
    2048 < (List.replicate 2049 65).length ∧
    tcpSend connectPolls connectPolls link0Device 0 (List.replicate 2049 65) =
      some (ESP8266_CMD_BAD, link0Device) ∧
    (tcpSend connectPolls connectPolls link0Device 0 (List.replicate 2049 65)).map
      (fun r => r.2.tx) = some link0Device.tx :=
  have h : 2048 < (List.replicate 2049 65).length := by
    rw [List.length_replicate]; decide
  ⟨h, tcpSend_rejects_large_payload connectPolls connectPolls link0Device 0
    (List.replicate 2049 65) h⟩

set_option maxRecDepth 100000 in
/-- C13 (the code at the failing input): the driver has not yet had a successful status
refresh and the firmware does not answer the status query.  `getFirstSocket` yields
`ESP8266_SOCK_NOT_AVAIL` after writing only the status query, and `connect` has no
defined result: control reaches the end of the function without a `return`. -/
theorem connect_without_free_slot :
    (getFirstSocket [] freshDevice).map (fun r => (r.1, r.2.tx)) =
      some (ESP8266_SOCK_NOT_AVAIL, ascii "AT+CIPSTATUS\r\n") ∧
    (connect [] connectPolls client0 freshDevice (ascii "example.com") 80 0).isSome =
      false := by
  decide

theorem length_decimal_slot (s : Fin ESP8266_MAX_SOCK_NUM) : (decimal s.val).length = 1 := by
  fin_cases s <;> decide

/-- The wait for one token returns whenever the reply is shorter than the receive
buffer. -/
theorem readForResponse_defined (rsp : List Nat) (polls : List (Option Nat))
    (hlen : polls.reduceOption.length < ESP8266_RX_BUFFER_LEN) :
    ∃ r b, readForResponse rsp polls = some (r, b) := by
  rcases readForResponse_cases rsp polls hlen with ⟨k, -, -, -, h⟩ | ⟨-, h⟩
  · obtain ⟨⟨r, b⟩, hb, -⟩ := Option.map_eq_some'.mp h
    exact ⟨r, b, hb⟩
  · obtain ⟨⟨r, b⟩, hb, -⟩ := Option.map_eq_some'.mp h
    exact ⟨r, b, hb⟩

/-- C14: for every client bound to a slot `s` in 0..4 and every reply to the close
command, when `stop()` returns the local state of slot `s` is `AVAILABLE` and the local
state of every other slot is as before; and `stop()` returns for every reply shorter
than the receive buffer (`OK`, an error text, or no byte at all). -/
theorem stop_releases_slot (polls : List (Option Nat)) (c : ESP8266Client) (d : ESP8266Class)
    (s : Fin ESP8266_MAX_SOCK_NUM) (hs : c._socket = s.val) :
    (∀ d1, stop polls c d = some d1 →
      d1._state s = AVAILABLE ∧ ∀ k, k ≠ s → d1._state k = d._state k) ∧
    (polls.reduceOption.length < ESP8266_RX_BUFFER_LEN → ∃ d1, stop polls c d = some d1) := by
  have hlt : c._socket < ESP8266_MAX_SOCK_NUM := by rw [hs]; exact s.isLt
  have hfin : (⟨c._socket, hlt⟩ : Fin ESP8266_MAX_SOCK_NUM) = s := Fin.ext hs
  have hdec : (decimal c._socket).length + 1 ≤ 2 := by
    rw [hs, length_decimal_slot]
  constructor
  · intro d1 h
    simp only [stop, close, hdec, if_true] at h
    cases hr : readForResponse RESPONSE_OK polls with
    | none => simp [hr] at h
    | some x =>
        simp only [hr, dif_pos hlt, Option.some.injEq] at h
        rw [← h, hfin]
        refine ⟨by simp, fun k hk => by simp [Function.update_noteq hk]⟩
  · intro hlen
    obtain ⟨r, b, hr⟩ := readForResponse_defined RESPONSE_OK polls hlen
    refine ⟨{ d with
      tx := sendCommand d.tx ESP8266_TCP_CLOSE ESP8266_CMD_SETUP (decimal c._socket),
      rxBuffer := b, _state := Function.update d._state ⟨c._socket, hlt⟩ AVAILABLE }, ?_⟩
    simp only [stop, close, hdec, if_true, hr, dif_pos hlt]

set_option maxRecDepth 100000 in
/-- C14, witness: a client bound to slot 0 whose close command gets no reply: the slot,
taken before, is available afterwards. -/
theorem stop_releases_slot_witness :
    (client0._socket = (0 : Fin ESP8266_MAX_SOCK_NUM).val ∧
      ([] : List (Option Nat)).reduceOption.length < ESP8266_RX_BUFFER_LEN ∧
      takenDevice._state 0 = TAKEN) ∧
    ∃ d1, stop [] client0 takenDevice = some d1 ∧ d1._state 0 = AVAILABLE ∧
      ∀ k, k ≠ 0 → d1._state k = takenDevice._state k :=
  have h := stop_releases_slot [] client0 takenDevice 0 rfl
  let ⟨d1, hd1⟩ := h.2 (by decide)
  ⟨by decide, d1, hd1, (h.1 d1 hd1).1, (h.1 d1 hd1).2⟩

set_option maxRecDepth 100000 in
/-- C15 (the code at the failing input): a client bound to slot 0, taken, with no data
waiting and the station status 3 in the last snapshot.  After `stop()` the local state
of slot 0 is `AVAILABLE` and `connected()` returns 1, not 0: it tests `_socket`, which
`stop()` leaves as it is, and never the local state.  On the same driver state a client
whose `_socket` is `ESP8266_SOCK_NOT_AVAIL`, as `connect()` leaves it when no slot is
free, gets 0. -/
theorem connected_after_stop :
    takenDevice._state 0 = TAKEN ∧
    (stop [] client0 takenDevice).map (fun d1 => (d1._state 0, connected 0 0 client0 d1)) =
      some (AVAILABLE, 1) ∧
    (stop [] client0 takenDevice).map
        (fun d1 => connected 0 0 { client0 with _socket := ESP8266_SOCK_NOT_AVAIL } d1) =
      some 0 := by
  decide

set_option maxRecDepth 100000 in
/-- C17 (the code at the failing inputs): from the empty buffer, a `read()` that finds
the 8 bytes of the marker in the transport returns -1 and leaves `receiveBufferSize` at
-5 (the marker and 5 more bytes are removed from 8); and a `read()` that finds 128 bytes
in the transport returns -1 and leaves `receiveBufferSize` at -128 (the guard
`receiveBufferSize < 256` never stops the draining, and the `char` wraps after 127). -/
theorem read_leaves_negative_size :
    (read IPD_MARKER emptyBuffer).map (fun r => (r.1, r.2.receiveBufferSize)) =
      some (-1, -5) ∧
    (read (List.replicate 128 65) emptyBuffer).map (fun r => (r.1, r.2.receiveBufferSize)) =
      some (-1, -128) := by
  decide

/-- C18: for every buffer whose logical length `n` is a length the field can hold (0 to
127, over the 256-byte array), every starting offset `o` and every truncate length `l`
with `o + l <= n`, `truncateReceiveBufferHead(o, l)` leaves the logical length `n - l`
and the content `b[0..o) ++ b[o+l..n)`. -/
theorem truncateReceiveBufferHead_content (s : ESP8266ClientReadBuffer) (o l : Nat)
    (hs : InRange s) (h : o + l ≤ s.receiveBufferSize.toNat) :
    (truncateReceiveBufferHead s o l).receiveBufferSize = s.receiveBufferSize - l ∧
    ((content (truncateReceiveBufferHead s o l)).length : Int) = s.receiveBufferSize - l ∧
    content (truncateReceiveBufferHead s o l) =
      (content s).take o ++ (content s).drop (o + l) := by
  obtain ⟨hr, hsz, hc⟩ := truncate_content s o l hs h
  exact ⟨hsz, by rw [length_content _ hr, hsz], hc⟩

/-! ## The station status -/

theorem setSlot_stat (st : esp8266_status) (k : Fin ESP8266_MAX_SOCK_NUM)
    (f : esp8266_ipstatus → esp8266_ipstatus) : (setSlot st k f).stat = st.stat := rfl

theorem resetFrom_stat (i : Nat) (st : esp8266_status) : (resetFrom i st).stat = st.stat := rfl

theorem parseOctets_stat (buf : List Nat) (k : Fin ESP8266_MAX_SOCK_NUM) :
    ∀ (js : List (Fin 4)) (p : Nat) (st : esp8266_status) (p1 : Nat) (st1 : esp8266_status),
      parseOctets buf k js p st = some (p1, st1) → st1.stat = st.stat := by
  intro js
  induction js with
  | nil =>
      intro p st p1 st1 h
      simp only [parseOctets, Option.some.injEq, Prod.mk.injEq] at h
      rw [← h.2]
  | cons j js ih =>
      intro p st p1 st1 h
      simp only [parseOctets] at h
      split at h
      · exact absurd h (by simp)
      · split at h
        · rw [ih _ _ _ _ h, setSlot_stat]
        · exact absurd h (by simp)

/-- The record loop returns the result of the wait and leaves the station status as it
is. -/
theorem updateStatusLoop_value (buf : List Nat) (rsp : Int) :
    ∀ (n i p : Nat) (st : esp8266_status) (r : Int) (st1 : esp8266_status),
      updateStatusLoop buf rsp n i p st = some (r, st1) → r = rsp ∧ st1.stat = st.stat := by
  intro n
  induction n with
  | zero =>
      intro i p st r st1 h
      simp only [updateStatusLoop, Option.some.injEq, Prod.mk.injEq] at h
      exact ⟨h.1.symm, by rw [← h.2]⟩
  | succ n ih =>
      intro i p st r st1 h
      simp only [updateStatusLoop] at h
      repeat' split at h
      all_goals first
        | (cases h; done)
        | (simp only [Option.some.injEq, Prod.mk.injEq] at h
           obtain ⟨ha, hb⟩ := h
           subst ha
           subst hb
           exact ⟨rfl, rfl⟩)
        | (obtain ⟨h1, h2⟩ := ih _ _ _ _ _ h
           refine ⟨h1, ?_⟩
           have h3 := parseOctets_stat _ _ _ _ _ _ _ (by assumption)
           rw [h2]
           simp only [setSlot_stat] at h3 ⊢
           exact h3)

set_option maxRecDepth 100000 in
/-- C16 (the code at the failing input): for the reply `STATUS:7\r\n\r\nOK\r\n`,
whose station status `7` is not a documented code, `updateStatus` stores 7 as the
station status and returns the byte count 16 of the wait, and `status()` returns 16 as
well: a positive value, not `ESP8266_RSP_UNKNOWN`. -/
theorem status_undocumented_code_returns_count :
    result (updateStatus status7Polls link0Device) = some 16 ∧
    (updateStatus status7Polls link0Device).map (fun r => r.2._status.stat) = some 7 ∧
    result (status status7Polls link0Device) = some 16 ∧
    result (updateStatus status7Polls link0Device) ≠ some ESP8266_RSP_UNKNOWN ∧
    result (status status7Polls link0Device) ≠ some ESP8266_RSP_UNKNOWN := by
  decide

set_option maxRecDepth 100000 in
/-- C18, witness: removing 2 bytes at offset 1 from a buffer holding `ABCDEF` leaves the
length 4 and the content `ADEF`. -/
theorem truncateReceiveBufferHead_content_witness :
    (InRange (bufferHolding (ascii "ABCDEF")) ∧
      1 + 2 ≤ (bufferHolding (ascii "ABCDEF")).receiveBufferSize.toNat) ∧
    (truncateReceiveBufferHead (bufferHolding (ascii "ABCDEF")) 1 2).receiveBufferSize =
      (bufferHolding (ascii "ABCDEF")).receiveBufferSize - (2 : Nat) ∧
    ((content (truncateReceiveBufferHead (bufferHolding (ascii "ABCDEF")) 1 2)).length : Int) =
      (bufferHolding (ascii "ABCDEF")).receiveBufferSize - (2 : Nat) ∧
    content (truncateReceiveBufferHead (bufferHolding (ascii "ABCDEF")) 1 2) =
      (content (bufferHolding (ascii "ABCDEF"))).take 1 ++
        (content (bufferHolding (ascii "ABCDEF"))).drop (1 + 2) :=
  have hs : InRange (bufferHolding (ascii "ABCDEF")) :=
    ⟨by decide, by decide, by decide⟩
  have hl : 1 + 2 ≤ (bufferHolding (ascii "ABCDEF")).receiveBufferSize.toNat := by decide
  ⟨⟨hs, hl⟩, truncateReceiveBufferHead_content (bufferHolding (ascii "ABCDEF")) 1 2 hs hl⟩

end ATESP8266
